import Mathlib

/-!
Verification development for the NeuroTrace anonymous-telemetry pipeline:
a client-side collector/scheduler (`src/TelemetryManager.ts`) and a
server-side ingestion service (`Telemetry/telemetry_server.js`).

The JavaScript/TypeScript sources are shallowly embedded: JSON values are an
inductive type, machine arithmetic is `Nat`/`Int` with explicit wrap where it
matters, in-place mutation becomes explicit state passing, and thrown
exceptions become `Except`.  `crypto.createHash('sha256')` is embedded as a
full executable SHA-256 over the UTF-8 bytes of the input string.
-/

/-! ## SHA-256 (crypto.createHash('sha256'), as used by the server) -/

/-- Truncate to a 32-bit word. -/
def w32 (n : Nat) : Nat := n % 4294967296

/-- Right rotation of a 32-bit word by `n` bits. -/
def rotr32 (n x : Nat) : Nat := w32 ((x >>> n) ||| (x <<< (32 - n)))

def bigSigma0 (x : Nat) : Nat := (rotr32 2 x) ^^^ (rotr32 13 x) ^^^ (rotr32 22 x)

def bigSigma1 (x : Nat) : Nat := (rotr32 6 x) ^^^ (rotr32 11 x) ^^^ (rotr32 25 x)

def smallSigma0 (x : Nat) : Nat := (rotr32 7 x) ^^^ (rotr32 18 x) ^^^ (x >>> 3)

def smallSigma1 (x : Nat) : Nat := (rotr32 17 x) ^^^ (rotr32 19 x) ^^^ (x >>> 10)

/-- The 64 SHA-256 round constants of FIPS 180-4 (0x428a2f98, 0x71374491, ...,
0xc67178f2), written in decimal. -/
def sha256K : List Nat :=
  [1116352408, 1899447441, 3049323471, 3921009573, 961987163, 1508970993,
   2453635748, 2870763221, 3624381080, 310598401, 607225278, 1426881987,
   1925078388, 2162078206, 2614888103, 3248222580, 3835390401, 4022224774,
   264347078, 604807628, 770255983, 1249150122, 1555081692, 1996064986,
   2554220882, 2821834349, 2952996808, 3210313671, 3336571891, 3584528711,
   113926993, 338241895, 666307205, 773529912, 1294757372, 1396182291,
   1695183700, 1986661051, 2177026350, 2456956037, 2730485921, 2820302411,
   3259730800, 3345764771, 3516065817, 3600352804, 4094571909, 275423344,
   430227734, 506948616, 659060556, 883997877, 958139571, 1322822218,
   1537002063, 1747873779, 1955562222, 2024104815, 2227730452, 2361852424,
   2428436474, 2756734187, 3204031479, 3329325298]

/-- The initial SHA-256 hash state (0x6a09e667 ... 0x5be0cd19, in decimal). -/
def sha256H0 : List Nat :=
  [1779033703, 3144134277, 1013904242, 2773480762, 1359893119, 2600822924,
   528734635, 1541459225]

/-- One step of the message-schedule extension: append word `w[n]` computed
from `w[n-2]`, `w[n-7]`, `w[n-15]`, `w[n-16]`. -/
def scheduleStep (ws : List Nat) : List Nat :=
  let n := ws.length
  ws ++ [w32 (smallSigma1 (ws.getD (n - 2) 0) + ws.getD (n - 7) 0 +
              smallSigma0 (ws.getD (n - 15) 0) + ws.getD (n - 16) 0)]

/-- Extend the 16 block words to the full 64-word schedule. -/
def fullSchedule (ws : List Nat) : List Nat :=
  (List.range 48).foldl (fun acc _ => scheduleStep acc) ws

/-- Working state of the compression function. -/
structure Sha256State where
  a : Nat
  b : Nat
  c : Nat
  d : Nat
  e : Nat
  f : Nat
  g : Nat
  h : Nat
deriving Repr, DecidableEq

/-- One compression round, consuming a pair of round constant and schedule word. -/
def compressStep (st : Sha256State) (kw : Nat × Nat) : Sha256State :=
  let t1 := w32 (st.h + bigSigma1 st.e + ((st.e &&& st.f) ^^^ ((4294967295 - st.e) &&& st.g)) +
                 kw.1 + kw.2)
  let t2 := w32 (bigSigma0 st.a + ((st.a &&& st.b) ^^^ (st.a &&& st.c) ^^^ (st.b &&& st.c)))
  { a := w32 (t1 + t2), b := st.a, c := st.b, d := st.c,
    e := w32 (st.d + t1), f := st.e, g := st.f, h := st.g }

/-- Compress one 16-word block into the running hash value. -/
def compressBlock (hs : List Nat) (block : List Nat) : List Nat :=
  let ws := fullSchedule block
  let init : Sha256State :=
    { a := hs.getD 0 0, b := hs.getD 1 0, c := hs.getD 2 0, d := hs.getD 3 0,
      e := hs.getD 4 0, f := hs.getD 5 0, g := hs.getD 6 0, h := hs.getD 7 0 }
  let fin := (sha256K.zip ws).foldl compressStep init
  [w32 (hs.getD 0 0 + fin.a), w32 (hs.getD 1 0 + fin.b), w32 (hs.getD 2 0 + fin.c),
   w32 (hs.getD 3 0 + fin.d), w32 (hs.getD 4 0 + fin.e), w32 (hs.getD 5 0 + fin.f),
   w32 (hs.getD 6 0 + fin.g), w32 (hs.getD 7 0 + fin.h)]

/-- Big-endian 8-byte encoding of a length value. -/
def beBytes8 (n : Nat) : List Nat :=
  [(n >>> 56) % 256, (n >>> 48) % 256, (n >>> 40) % 256, (n >>> 32) % 256,
   (n >>> 24) % 256, (n >>> 16) % 256, (n >>> 8) % 256, n % 256]

/-- SHA-256 padding: append 0x80, zero bytes to 56 mod 64, then the bit length. -/
def padMessage (bytes : List Nat) : List Nat :=
  let len := bytes.length
  let zeros := (119 - len % 64) % 64
  bytes ++ 128 :: List.replicate zeros 0 ++ beBytes8 (len * 8)

/-- Group a byte list into big-endian 32-bit words. -/
def toWords : List Nat → List Nat
  | b0 :: b1 :: b2 :: b3 :: rest =>
      (b0 * 16777216 + b1 * 65536 + b2 * 256 + b3) :: toWords rest
  | _ => []

/-- Split a byte list into 64-byte chunks; the fuel argument (any bound on the
number of chunks) makes the recursion structural. -/
def chunksAux : Nat → List Nat → List (List Nat)
  | 0, _ => []
  | _, [] => []
  | fuel + 1, b :: rest => (b :: rest).take 64 :: chunksAux fuel ((b :: rest).drop 64)

/-- Split a byte list into 64-byte chunks. -/
def chunks64 (l : List Nat) : List (List Nat) := chunksAux l.length l

/-- SHA-256 of a byte sequence, as eight 32-bit words. -/
def sha256Words (msg : List Nat) : List Nat :=
  (chunks64 (padMessage msg)).foldl (fun hs block => compressBlock hs (toWords block)) sha256H0

/-- Lowercase hexadecimal digit. -/
def hexChar (n : Nat) : Char := if n < 10 then Char.ofNat (48 + n) else Char.ofNat (87 + n)

/-- Eight hex digits of one 32-bit word, most significant nibble first. -/
def wordHex (w : Nat) : List Char :=
  [hexChar ((w >>> 28) % 16), hexChar ((w >>> 24) % 16), hexChar ((w >>> 20) % 16),
   hexChar ((w >>> 16) % 16), hexChar ((w >>> 12) % 16), hexChar ((w >>> 8) % 16),
   hexChar ((w >>> 4) % 16), hexChar (w % 16)]

/-- UTF-8 encoding of one code point. -/
def utf8Bytes (c : Nat) : List Nat :=
  if c < 128 then [c]
  else if c < 2048 then [192 + (c >>> 6), 128 + (c % 64)]
  else if c < 65536 then [224 + (c >>> 12), 128 + ((c >>> 6) % 64), 128 + (c % 64)]
  else [240 + (c >>> 18), 128 + ((c >>> 12) % 64), 128 + ((c >>> 6) % 64), 128 + (c % 64)]

/-- UTF-8 bytes of a string (what `hash.update(string)` consumes in Node). -/
def strUtf8 (s : String) : List Nat := (s.data.map (fun c => utf8Bytes c.toNat)).flatten

/-- Hex digest of the SHA-256 of a string's UTF-8 bytes
(`crypto.createHash('sha256').update(s).digest('hex')`). -/
def sha256Hex (s : String) : String := String.mk ((sha256Words (strUtf8 s)).map wordHex).flatten

/-- Server function `hashAnonymousId`: first 16 hex characters of the
SHA-256 digest (`.digest('hex').substring(0, 16)`). -/
def hashAnonymousId (s : String) : String := String.mk ((sha256Hex s).data.take 16)

/-! ## JSON values and JSON.stringify

JSON bodies parsed by `express.json` and written by `fs.writeFile` are
modelled by an inductive type.  `JSON.parse` never produces `undefined` and
collapses duplicate keys, so object fields are an association list looked up
by first occurrence.  Strings are sequences of Unicode code points. -/

inductive Json where
  | null
  | bool (b : Bool)
  | num (n : Int)
  | str (s : String)
  | arr (elems : List Json)
  | obj (fields : List (String × Json))

mutual

/-- Boolean equality on JSON values (deriving cannot handle the nesting). -/
def Json.beq : Json → Json → Bool
  | .null, .null => true
  | .bool a, .bool b => a == b
  | .num a, .num b => a == b
  | .str a, .str b => a == b
  | .arr a, .arr b => Json.beqList a b
  | .obj a, .obj b => Json.beqFields a b
  | _, _ => false

def Json.beqList : List Json → List Json → Bool
  | [], [] => true
  | x :: xs, y :: ys => Json.beq x y && Json.beqList xs ys
  | _, _ => false

def Json.beqFields : List (String × Json) → List (String × Json) → Bool
  | [], [] => true
  | (k, v) :: xs, (k', v') :: ys => k == k' && Json.beq v v' && Json.beqFields xs ys
  | _, _ => false

end

mutual

theorem Json.eq_of_beq : ∀ a b : Json, Json.beq a b = true → a = b
  | .null, .null, _ => rfl
  | .bool _, .bool _, h => by simp [Json.beq] at h; simp [h]
  | .num _, .num _, h => by simp [Json.beq] at h; simp [h]
  | .str _, .str _, h => by simp [Json.beq] at h; simp [h]
  | .arr a, .arr b, h => by rw [Json.eqList_of_beq a b (by simpa [Json.beq] using h)]
  | .obj a, .obj b, h => by rw [Json.eqFields_of_beq a b (by simpa [Json.beq] using h)]
  | .null, .bool _, h => by simp [Json.beq] at h
  | .null, .num _, h => by simp [Json.beq] at h
  | .null, .str _, h => by simp [Json.beq] at h
  | .null, .arr _, h => by simp [Json.beq] at h
  | .null, .obj _, h => by simp [Json.beq] at h
  | .bool _, .null, h => by simp [Json.beq] at h
  | .bool _, .num _, h => by simp [Json.beq] at h
  | .bool _, .str _, h => by simp [Json.beq] at h
  | .bool _, .arr _, h => by simp [Json.beq] at h
  | .bool _, .obj _, h => by simp [Json.beq] at h
  | .num _, .null, h => by simp [Json.beq] at h
  | .num _, .bool _, h => by simp [Json.beq] at h
  | .num _, .str _, h => by simp [Json.beq] at h
  | .num _, .arr _, h => by simp [Json.beq] at h
  | .num _, .obj _, h => by simp [Json.beq] at h
  | .str _, .null, h => by simp [Json.beq] at h
  | .str _, .bool _, h => by simp [Json.beq] at h
  | .str _, .num _, h => by simp [Json.beq] at h
  | .str _, .arr _, h => by simp [Json.beq] at h
  | .str _, .obj _, h => by simp [Json.beq] at h
  | .arr _, .null, h => by simp [Json.beq] at h
  | .arr _, .bool _, h => by simp [Json.beq] at h
  | .arr _, .num _, h => by simp [Json.beq] at h
  | .arr _, .str _, h => by simp [Json.beq] at h
  | .arr _, .obj _, h => by simp [Json.beq] at h
  | .obj _, .null, h => by simp [Json.beq] at h
  | .obj _, .bool _, h => by simp [Json.beq] at h
  | .obj _, .num _, h => by simp [Json.beq] at h
  | .obj _, .str _, h => by simp [Json.beq] at h
  | .obj _, .arr _, h => by simp [Json.beq] at h

theorem Json.eqList_of_beq : ∀ a b : List Json, Json.beqList a b = true → a = b
  | [], [], _ => rfl
  | [], _ :: _, h => by simp [Json.beqList] at h
  | _ :: _, [], h => by simp [Json.beqList] at h
  | x :: xs, y :: ys, h => by
      have h' := h
      simp only [Json.beqList, Bool.and_eq_true] at h'
      rw [Json.eq_of_beq x y h'.1, Json.eqList_of_beq xs ys h'.2]

theorem Json.eqFields_of_beq : ∀ a b : List (String × Json), Json.beqFields a b = true → a = b
  | [], [], _ => rfl
  | [], _ :: _, h => by simp [Json.beqFields] at h
  | _ :: _, [], h => by simp [Json.beqFields] at h
  | (k, v) :: xs, (k', v') :: ys, h => by
      have h' := h
      simp only [Json.beqFields, Bool.and_eq_true, beq_iff_eq] at h'
      rw [h'.1.1, Json.eq_of_beq v v' h'.1.2, Json.eqFields_of_beq xs ys h'.2]

end

mutual

theorem Json.beq_refl : ∀ a : Json, Json.beq a a = true
  | .null => rfl
  | .bool _ => by simp [Json.beq]
  | .num _ => by simp [Json.beq]
  | .str _ => by simp [Json.beq]
  | .arr a => by simpa [Json.beq] using Json.beqList_refl a
  | .obj a => by simpa [Json.beq] using Json.beqFields_refl a

theorem Json.beqList_refl : ∀ a : List Json, Json.beqList a a = true
  | [] => rfl
  | x :: xs => by simp [Json.beqList, Json.beq_refl x, Json.beqList_refl xs]

theorem Json.beqFields_refl : ∀ a : List (String × Json), Json.beqFields a a = true
  | [] => rfl
  | (k, v) :: xs => by simp [Json.beqFields, Json.beq_refl v, Json.beqFields_refl xs]

end

instance : DecidableEq Json := fun a b =>
  if h : Json.beq a b = true then isTrue (Json.eq_of_beq a b h)
  else isFalse (fun e => h (e ▸ Json.beq_refl a))

/-- JSON string escaping as performed by `JSON.stringify`: quote, backslash,
and control characters (code points are written numerically). -/
def escapeChar (c : Char) : List Char :=
  if c = Char.ofNat 34 then [Char.ofNat 92, Char.ofNat 34]
  else if c = Char.ofNat 92 then [Char.ofNat 92, Char.ofNat 92]
  else if c = Char.ofNat 8 then [Char.ofNat 92, Char.ofNat 98]
  else if c = Char.ofNat 9 then [Char.ofNat 92, Char.ofNat 116]
  else if c = Char.ofNat 10 then [Char.ofNat 92, Char.ofNat 110]
  else if c = Char.ofNat 12 then [Char.ofNat 92, Char.ofNat 102]
  else if c = Char.ofNat 13 then [Char.ofNat 92, Char.ofNat 114]
  else if c.toNat < 32 then
    [Char.ofNat 92, Char.ofNat 117, Char.ofNat 48, Char.ofNat 48,
     hexChar (c.toNat / 16), hexChar (c.toNat % 16)]
  else [c]

/-- A JSON string literal: surrounding quotes plus escaped content. -/
def jsQuote (s : String) : String :=
  String.mk (Char.ofNat 34 :: ((s.data.map escapeChar).flatten ++ [Char.ofNat 34]))

mutual

/-- `JSON.stringify` without an indent argument (used for all size checks and
for the request body). -/
def jsonStringify : Json → String
  | .null => "null"
  | .bool true => "true"
  | .bool false => "false"
  | .num n => toString n
  | .str s => jsQuote s
  | .arr xs => "[" ++ stringifyElems xs ++ "]"
  | .obj fs => "\x7b" ++ stringifyMembers fs ++ "\x7d"

def stringifyElems : List Json → String
  | [] => ""
  | [x] => jsonStringify x
  | x :: y :: rest => jsonStringify x ++ "," ++ stringifyElems (y :: rest)

def stringifyMembers : List (String × Json) → String
  | [] => ""
  | [(k, v)] => jsQuote k ++ ":" ++ jsonStringify v
  | (k, v) :: m :: rest => jsQuote k ++ ":" ++ jsonStringify v ++ "," ++ stringifyMembers (m :: rest)

end

/-- JavaScript truthiness of a JSON value (`undefined` is represented by the
absence of a field and handled at access sites). -/
def jsTruthy : Json → Bool
  | .null => false
  | .bool b => b
  | .num n => !(n == 0)
  | .str s => !(s == "")
  | .arr _ => true
  | .obj _ => true

/-- The `in` operator on a request body: own-property test on objects; the
whitelisted names are never index properties of an array. -/
def jsHasField (data : Json) (field : String) : Bool :=
  match data with
  | .obj fields => (fields.lookup field).isSome
  | _ => false

/-- Property read `base.field` on a non-null base; an absent property reads as
`undefined`, which is falsy and never serialized, so `null` stands in for it. -/
def jsFieldD (base : Json) (field : String) : Json :=
  match base with
  | .obj fields => (fields.lookup field).getD .null
  | _ => .null

/-- Replace the value of a key, keeping its position, or append it. -/
def setKey : List (String × Json) → String → Json → List (String × Json)
  | [], k, v => [(k, v)]
  | (k', v') :: rest, k, v =>
      if k' = k then (k, v) :: rest else (k', v') :: setKey rest k v

/-- Remove a key (`delete obj.key`). -/
def removeKey (fields : List (String × Json)) (k : String) : List (String × Json) :=
  fields.filter (fun kv => !(kv.1 == k))

/-- Property write `base.field = v`: effective on objects, silently ignored on
other non-null values in sloppy mode. -/
def jsSetField (base : Json) (field : String) (v : Json) : Json :=
  match base with
  | .obj fields => .obj (setKey fields field v)
  | other => other

/-! ## Server: telemetry_server.js -/

/-- String part of server function `sanitizeInput`: drop the characters
`<` `>` `"` `'` `&` (code points 60, 62, 34, 39, 38), then cut to 1000
characters (`replace(/[<>\x22'&]/g, '').slice(0, 1000)`). -/
def sanitizeStr (s : String) : String :=
  String.mk ((s.data.filter (fun c => !([60, 62, 34, 39, 38].contains c.toNat))).take 1000)

/-- Server function `sanitizeInput`: strings are sanitized, any other value
passes through. -/
def sanitizeInput (j : Json) : Json :=
  match j with
  | .str s => .str (sanitizeStr s)
  | _ => j

def requiredFields : List String :=
  ["sessionId", "extensionVersion", "vscodeVersion", "platform", "weekStart", "events",
   "aggregatedStats"]

def validEventTypes : List String :=
  ["thought_created", "graph_opened", "suggest_related_used", "semantic_search_used",
   "semantic_ai_graph_used"]

/-- `validEventTypes.includes(event.eventType)`: strict comparison, so only a
string can be in the whitelist. -/
def inWhitelist (j : Json) : Bool :=
  match j with
  | .str s => validEventTypes.contains s
  | _ => false

/-- First required top-level field missing from the body, if any. -/
def findMissingField (data : Json) : List String → Option String
  | [] => none
  | f :: rest => if jsHasField data f then findMissingField data rest else some f

/-- The per-event validation loop.  Each event's three fields are read (a
`null` event makes the property read throw a TypeError, modelled as
`Except.error`), checked for truthiness, then `eventType` and `anonymousId`
are overwritten in place with their sanitized forms before the whitelist
check.  The first failing event stops the loop.  The JS error string appends
the offending value; only its identity up to the branch matters here. -/
def validateEvents : List Json → Except Unit (Option String × List Json)
  | [] => .ok (none, [])
  | e :: rest =>
    if e = Json.null then .error ()
    else
      let et := jsFieldD e "eventType"
      let ts := jsFieldD e "timestamp"
      let aid := jsFieldD e "anonymousId"
      if !(jsTruthy et && jsTruthy ts && jsTruthy aid) then
        .ok (some "Invalid event structure", e :: rest)
      else
        let e' := jsSetField (jsSetField e "eventType" (sanitizeInput et)) "anonymousId"
          (sanitizeInput aid)
        if !(inWhitelist (sanitizeInput et)) then
          .ok (some "Invalid event type", e' :: rest)
        else
          match validateEvents rest with
          | .error u => .error u
          | .ok (r, rest') => .ok (r, e' :: rest')

/-- Outcome of `validateTelemetryData`. -/
structure ValidationResult where
  valid : Bool
  error : Option String
deriving DecidableEq

/-- Server function `validateTelemetryData`.  The checks run in source order:
serialized size, required top-level fields, `events` is an array, event count,
then the per-event loop.  The function returns the (possibly mutated) body
alongside the verdict, since the JS sanitizes `req.body` in place. -/
def validateTelemetryData (data : Json) : Except Unit (ValidationResult × Json) :=
  if (jsonStringify data).length > 500000 then
    .ok ({ valid := false, error := some "Data payload too large" }, data)
  else
    match findMissingField data requiredFields with
    | some f => .ok ({ valid := false, error := some ("Missing required field: " ++ f) }, data)
    | none =>
      match jsFieldD data "events" with
      | .arr events =>
        if events.length > 1000 then
          .ok ({ valid := false, error := some "Too many events in single submission" }, data)
        else
          match validateEvents events with
          | .error u => .error u
          | .ok (some err, events') =>
              .ok ({ valid := false, error := some err }, jsSetField data "events" (.arr events'))
          | .ok (none, events') =>
              .ok ({ valid := true, error := none }, jsSetField data "events" (.arr events'))
      | _ => .ok ({ valid := false, error := some "Events must be an array" }, data)

def safeFields : List String :=
  ["thoughtType", "hasCodeSnippet", "searchTermLength", "resultCount"]

/-- Server function `sanitizeMetadata`: keeps only the whitelisted fields, in
whitelist order.  The `in` operator throws a TypeError on a primitive
metadata value; on an array none of the whitelisted names is an own
property. -/
def sanitizeMetadata (metadata : Json) : Except Unit Json :=
  match metadata with
  | .obj fields =>
      .ok (.obj (safeFields.foldl
        (fun acc f => match fields.lookup f with
          | some v => acc ++ [(f, v)]
          | none => acc) []))
  | .arr _ => .ok (.obj [])
  | _ => .error ()

/-- `hashAnonymousId` applied to a JSON value: `hash.update` throws a
TypeError unless the argument is a string. -/
def hashAnonymousIdValue (j : Json) : Except Unit String :=
  match j with
  | .str s => .ok (hashAnonymousId s)
  | _ => .error ()

/-- One event as rebuilt by `sanitizeTelemetryData`: the literal
`{ eventType, timestamp, anonymousId: hash, metadata }` with `metadata`
present only when the incoming field is truthy (an `undefined` value is
dropped by `JSON.stringify` when the record is persisted). -/
def sanitizeEvent (e : Json) : Except Unit Json :=
  if e = Json.null then .error ()
  else do
    let hashed ← hashAnonymousIdValue (jsFieldD e "anonymousId")
    let md := jsFieldD e "metadata"
    let mdField ← if jsTruthy md then do
        let sm ← sanitizeMetadata md
        pure [("metadata", sm)]
      else pure ([] : List (String × Json))
    pure (.obj ([("eventType", jsFieldD e "eventType"),
                 ("timestamp", jsFieldD e "timestamp"),
                 ("anonymousId", .str hashed)] ++ mdField))

/-- Server function `sanitizeTelemetryData`: spread of the (validated,
in-place sanitized) body with `events` rebuilt per `sanitizeEvent` and
`sessionId` deleted. -/
def sanitizeTelemetryData (data : Json) : Except Unit Json :=
  match data with
  | .obj fields => do
      let events ← match jsFieldD data "events" with
        | .arr es => es.mapM sanitizeEvent
        | _ => .error ()
      pure (.obj (removeKey (setKey fields "events" (.arr events)) "sessionId"))
  | _ => .error ()

/-- JS `a || b` for an optional environment string: `undefined` and the empty
string are falsy. -/
def jsOrDefault (v : Option String) (d : String) : String :=
  match v with
  | some s => if s == "" then d else s
  | none => d

/-- The argument actually hashed into `ipHash`:
`clientIP + process.env.IP_SALT || 'default-salt'`.  JS `+` binds tighter
than `||`, and concatenating an absent env var stringifies `undefined`, so
the concatenation is never falsy unless it is the empty string. -/
def ipHashInput (clientIP : String) (ipSalt : Option String) : String :=
  let concat := clientIP ++ (match ipSalt with | some s => s | none => "undefined")
  if concat == "" then "default-salt" else concat

/-- The documented intent of the `ipHash` line: salt from the environment,
falling back to the literal `'default-salt'` when the variable is absent. -/
def intendedIpHashInput (clientIP : String) (ipSalt : Option String) : String :=
  clientIP ++ (match ipSalt with | some s => s | none => "default-salt")

/-- Response sent by the telemetry endpoint (the fields the claims mention). -/
structure ServerResponse where
  status : Nat
  success : Bool
  error : Option String
  eventsProcessed : Option Nat
deriving DecidableEq

def respondInvalid : ServerResponse :=
  { status := 400, success := false, error := some "Invalid data format", eventsProcessed := none }

def respondServerError : ServerResponse :=
  { status := 500, success := false, error := some "Internal server error", eventsProcessed := none }

/-- Number of events of a processed record (`processedData.events.length`). -/
def eventsCount (j : Json) : Nat :=
  match jsFieldD j "events" with
  | .arr es => es.length
  | _ => 0

/-- The `events` array of a body or record (empty for a non-array value). -/
def eventsOf (j : Json) : List Json :=
  match jsFieldD j "events" with
  | .arr es => es
  | _ => []

/-- An event the validator rejects: a falsy `eventType`, `timestamp` or
`anonymousId`, or a sanitized `eventType` outside the whitelist. -/
def badEvent (e : Json) : Prop :=
  jsTruthy (jsFieldD e "eventType") = false ∨
  jsTruthy (jsFieldD e "timestamp") = false ∨
  jsTruthy (jsFieldD e "anonymousId") = false ∨
  inWhitelist (sanitizeInput (jsFieldD e "eventType")) = false

/-- The server fields added to the sanitized batch:
`{...sanitizedData, receivedAt, serverVersion, ipHash}`. -/
def addServerFields (sanitized : Json) (receivedAt serverVersion ipHash : String) : Json :=
  match sanitized with
  | .obj fields =>
      .obj (setKey (setKey (setKey fields "receivedAt" (.str receivedAt))
        "serverVersion" (.str serverVersion)) "ipHash" (.str ipHash))
  | other => other

/-- The `POST /api/telemetry` handler after body parsing and the content-type
gate: validate, sanitize, add server metadata, persist.  The result is the
HTTP response together with the persisted record, if any (the filename is
random and not modelled).  A thrown TypeError is answered by the
`catch` with a 500 and nothing is written. -/
def postAfterValidate (vr : Except Unit (ValidationResult × Json)) (clientIP : String)
    (ipSalt serverVersion : Option String) (receivedAt : String) :
    ServerResponse × Option Json :=
  match vr with
  | .error _ => (respondServerError, none)
  | .ok (res, data) =>
    if !res.valid then (respondInvalid, none)
    else
      match sanitizeTelemetryData data with
      | .error _ => (respondServerError, none)
      | .ok sanitized =>
          let processed := addServerFields sanitized receivedAt
            (jsOrDefault serverVersion "1.0.0") (hashAnonymousId (ipHashInput clientIP ipSalt))
          ({ status := 200, success := true, error := none,
             eventsProcessed := some (eventsCount processed) }, some processed)

def postTelemetry (body : Json) (clientIP : String) (ipSalt serverVersion : Option String)
    (receivedAt : String) : ServerResponse × Option Json :=
  postAfterValidate (validateTelemetryData body) clientIP ipSalt serverVersion receivedAt

/-! ## Server: rate limiter -/

def RATE_LIMIT : Nat := 100

def RATE_WINDOW : Int := 3600000

structure RateEntry where
  count : Nat
  windowStart : Int
deriving DecidableEq

def rateLimited : ServerResponse :=
  { status := 429, success := false,
    error := some "Rate limit exceeded. Please try again later.", eventsProcessed := none }

/-- The `rateLimit` middleware for one client key (`requestCounts` maps each
caller identity to its own entry and keys never interact): `none` means the
request was passed on to the handler (`next()`), `some` is the early 429. -/
def rateLimit (entry : Option RateEntry) (now : Int) : Option ServerResponse × RateEntry :=
  match entry with
  | none => (none, { count := 1, windowStart := now })
  | some e =>
    if now - e.windowStart > RATE_WINDOW then (none, { count := 1, windowStart := now })
    else if RATE_LIMIT ≤ e.count then (some rateLimited, e)
    else (none, { e with count := e.count + 1 })

/-- Decisions for a sequence of request instants of one client identity,
threading the stored entry. -/
def rateDecisions (entry : Option RateEntry) : List Int → List (Option ServerResponse)
  | [] => []
  | t :: ts =>
      let r := rateLimit entry t
      r.1 :: rateDecisions (some r.2) ts

/-- The stored entry after a sequence of requests of one client identity. -/
def rateFold (entry : Option RateEntry) : List Int → Option RateEntry
  | [] => entry
  | t :: ts => rateFold (some (rateLimit entry t).2) ts

/-! ## Client: TelemetryManager.ts constants and scheduler -/

def SUBMISSION_INTERVAL : Int := 86400000

def RETRY_DELAYS : List Nat := [1800000, 7200000, 21600000]

def MAX_DATA_AGE : Int := 604800000

/-- The next submission instant computed by `setupSubmissionSchedule`
(`Math.floor` is floor division, `Int.fdiv`). -/
def nextSubmissionTime (firstActivation now : Int) : Int :=
  let timeSinceActivation := now - firstActivation
  let cyclesSinceActivation := Int.fdiv timeSinceActivation SUBMISSION_INTERVAL
  firstActivation + (cyclesSinceActivation + 1) * SUBMISSION_INTERVAL

/-- `scheduleRetry`: the delay armed for the current retry count, or `none`
when the delay table is exhausted. -/
def scheduleRetry (retryCount : Nat) : Option Nat :=
  if RETRY_DELAYS.length ≤ retryCount then none
  else some (RETRY_DELAYS.getD retryCount 0)

/-- How a submission cycle ends: an actual submit attempt after a successful
connectivity probe, or idle until the next regular interval. -/
inductive CycleOutcome where
  | submitted (attempt : Nat)
  | idle
deriving DecidableEq

/-- Retries driven from retry count `rc`: each armed timer fires, increments
the count, re-probes (`probe i` is the result of the i-th connectivity check
of the cycle) and either submits or re-arms via `scheduleRetry`.  The fuel is
the number of remaining delay-table entries, making the recursion structural;
it is exhausted exactly when `scheduleRetry` answers `none`. -/
def runRetriesAux (probe : Nat → Bool) : Nat → Nat → List Nat × CycleOutcome
  | 0, _ => ([], .idle)
  | fuel + 1, rc =>
    match scheduleRetry rc with
    | none => ([], .idle)
    | some d =>
      if probe (rc + 1) then ([d], .submitted (rc + 1))
      else
        let r := runRetriesAux probe fuel (rc + 1)
        (d :: r.1, r.2)

def runRetries (probe : Nat → Bool) (rc : Nat) : List Nat × CycleOutcome :=
  runRetriesAux probe (RETRY_DELAYS.length - rc) rc

/-- `attemptSubmission`: reset the retry count, probe connectivity, submit on
success and otherwise start the retry ladder.  The result lists the retry
delays armed during the cycle and how the cycle ends. -/
def attemptSubmissionTrace (probe : Nat → Bool) : List Nat × CycleOutcome :=
  if probe 0 then ([], .submitted 0) else runRetries probe 0

/-! ## Client: local batch data model -/

structure AggregatedStats where
  thoughtsCreated : Nat
  graphOpened : Nat
  suggestRelatedUsed : Nat
  semanticSearchUsed : Nat
  semanticAiGraphUsed : Nat
  uniqueDaysActive : Nat
deriving DecidableEq

structure TelemetryEvent where
  eventType : String
  timestamp : String
  anonymousId : String
  metadata : Option Json
deriving DecidableEq

structure TelemetryData where
  sessionId : String
  extensionVersion : String
  vscodeVersion : String
  platform : String
  weekStart : String
  events : List TelemetryEvent
  aggregatedStats : AggregatedStats
deriving DecidableEq

/-- JSON form of one client event; `trackEvent` writes the literal
`{ eventType, timestamp, anonymousId, metadata }` and `JSON.stringify` drops
the `metadata` key when the value is `undefined`. -/
def encodeEvent (e : TelemetryEvent) : Json :=
  .obj ([("eventType", .str e.eventType), ("timestamp", .str e.timestamp),
         ("anonymousId", .str e.anonymousId)] ++
        (match e.metadata with | some m => [("metadata", m)] | none => []))

def encodeStats (s : AggregatedStats) : Json :=
  .obj [("thoughtsCreated", .num s.thoughtsCreated), ("graphOpened", .num s.graphOpened),
        ("suggestRelatedUsed", .num s.suggestRelatedUsed),
        ("semanticSearchUsed", .num s.semanticSearchUsed),
        ("semanticAiGraphUsed", .num s.semanticAiGraphUsed),
        ("uniqueDaysActive", .num s.uniqueDaysActive)]

/-- JSON form of the client batch, in the field order of
`createEmptyTelemetryData`. -/
def encodeTelemetryData (d : TelemetryData) : Json :=
  .obj [("sessionId", .str d.sessionId), ("extensionVersion", .str d.extensionVersion),
        ("vscodeVersion", .str d.vscodeVersion), ("platform", .str d.platform),
        ("weekStart", .str d.weekStart), ("events", .arr (d.events.map encodeEvent)),
        ("aggregatedStats", encodeStats d.aggregatedStats)]

/-- `xs.slice(-n)`: the last `n` elements (all of them when fewer). -/
def lastN (n : Nat) (xs : List α) : List α := xs.drop (xs.length - n)

/-- The payload-size guard at the top of `sendToBackend`: above the
900000-character safety margin the events are cut to `events.slice(-500)`;
`aggregatedStats` is not touched. -/
def truncateForSend (d : TelemetryData) : TelemetryData :=
  if 900000 < (jsonStringify (encodeTelemetryData d)).length
  then { d with events := lastN 500 d.events }
  else d

inductive SendResult where
  | ok
  | rateLimitError
  | httpError (status : Nat)
deriving DecidableEq

/-- `sendToBackend`: truncate if oversized, POST, then classify the response.
`response.ok` is a status in 200..299; 429 throws its own message and every
other non-2xx status throws `HTTP <status>`.  The first component is the
payload actually sent. -/
def sendToBackend (d : TelemetryData) (status : Nat) : TelemetryData × SendResult :=
  let sent := truncateForSend d
  if 200 ≤ status ∧ status ≤ 299 then (sent, .ok)
  else if status = 429 then (sent, .rateLimitError)
  else (sent, .httpError status)

/-- Client-side state relevant to a submission attempt. -/
structure ClientState where
  batchFile : Option TelemetryData
  retryCount : Nat
  retryTimer : Option Nat
deriving DecidableEq

inductive SubmitOutcome where
  | disabled
  | noEvents
  | success
  | failed
deriving DecidableEq

/-- Effect of `scheduleRetry` on the client state: arm the retry timer unless
the delay table is exhausted. -/
def scheduleRetryState (st : ClientState) : ClientState :=
  match scheduleRetry st.retryCount with
  | some d => { st with retryTimer := some d }
  | none => st

/-- `submitTelemetryData`: no-op when disabled; a missing local file throws
into the catch; an empty event list returns silently; otherwise the batch is
sent.  Success deletes the local file, resets the retry count and clears any
pending retry timer; a thrown error (any non-2xx response) schedules a retry
when the table is not exhausted.  `status` is the response the backend would
give if the request is made; the final Bool records whether a network request
was performed. -/
def submitTelemetryData (isEnabled : Bool) (st : ClientState) (status : Nat) :
    ClientState × SubmitOutcome × Bool :=
  if !isEnabled then (st, .disabled, false)
  else
    match st.batchFile with
    | none => (scheduleRetryState st, .failed, false)
    | some data =>
      if data.events.length = 0 then (st, .noEvents, false)
      else
        match sendToBackend data status with
        | (_, .ok) => ({ batchFile := none, retryCount := 0, retryTimer := none }, .success, true)
        | (_, _) => (scheduleRetryState st, .failed, true)

/-! ## Client: retention (cleanOldData) -/

def digitVal (c : Char) : Option Nat :=
  if 48 ≤ c.toNat ∧ c.toNat ≤ 57 then some (c.toNat - 48) else none

def parseDigits (cs : List Char) : Option Nat :=
  cs.foldl (fun acc c =>
    match acc, digitVal c with
    | some n, some d => some (n * 10 + d)
    | _, _ => none) (some 0)

/-- Days between a civil date and 1970-01-01 (proleptic Gregorian), the date
part of the ECMAScript time value. -/
def daysFromCivil (y m d : Nat) : Int :=
  let yr : Int := if m ≤ 2 then (y : Int) - 1 else (y : Int)
  let era := Int.fdiv yr 400
  let yoe := yr - era * 400
  let mp : Int := Int.fmod ((m : Int) + 9) 12
  let doy := Int.fdiv (153 * mp + 2) 5 + (d : Int) - 1
  let doe := yoe * 365 + Int.fdiv yoe 4 - Int.fdiv yoe 100 + doy
  era * 146097 + doe - 719468

/-- `new Date(s).getTime()` for the strings the client itself writes
(`Date.prototype.toISOString`: `YYYY-MM-DDTHH:MM:SS.mmmZ`).  Anything else
parses to NaN (`none`); NaN compares false and such events are dropped.
Engine-specific acceptance of other formats is not modelled. -/
def parseIsoUtc (s : String) : Option Int :=
  let cs := s.data
  if cs.length = 24 ∧ cs.getD 4 ' ' = '-' ∧ cs.getD 7 ' ' = '-' ∧ cs.getD 10 ' ' = 'T' ∧
     cs.getD 13 ' ' = ':' ∧ cs.getD 16 ' ' = ':' ∧ cs.getD 19 ' ' = '.' ∧
     cs.getD 23 ' ' = 'Z' then
    match parseDigits (cs.take 4), parseDigits ((cs.drop 5).take 2),
          parseDigits ((cs.drop 8).take 2), parseDigits ((cs.drop 11).take 2),
          parseDigits ((cs.drop 14).take 2), parseDigits ((cs.drop 17).take 2),
          parseDigits ((cs.drop 20).take 3) with
    | some y, some mo, some d, some h, some mi, some sec, some ms =>
        if 1 ≤ mo ∧ mo ≤ 12 ∧ 1 ≤ d ∧ d ≤ 31 ∧ h ≤ 23 ∧ mi ≤ 59 ∧ sec ≤ 59 then
          some (daysFromCivil y mo d * 86400000 + h * 3600000 + mi * 60000 + sec * 1000 + ms)
        else none
    | _, _, _, _, _, _, _ => none
  else none

/-- The filter predicate of `cleanOldData`:
`new Date(event.timestamp).getTime() > cutoffDate`. -/
def eventKept (now : Int) (e : TelemetryEvent) : Bool :=
  match parseIsoUtc e.timestamp with
  | some t => now - MAX_DATA_AGE < t
  | none => false

/-- `cleanOldData`: filter out events older than `MAX_DATA_AGE`, writing the
file back (Bool) only when the filtered list is shorter. -/
def cleanOldData (now : Int) (data : TelemetryData) : TelemetryData × Bool :=
  let filteredEvents := data.events.filter (eventKept now)
  if filteredEvents.length < data.events.length
  then ({ data with events := filteredEvents }, true)
  else (data, false)

/-! ## Concrete inputs used by counterexamples and witnesses -/

/-- A well-formed submitted event with a fixed timestamp. -/
def sampleEvent (et aid : String) : Json :=
  .obj [("eventType", .str et), ("timestamp", .str "2025-01-01T00:00:00.000Z"),
        ("anonymousId", .str aid)]

/-- A submission body with every required field, around the given events. -/
def sampleBody (events : List Json) : Json :=
  .obj [("sessionId", .str "sess-1"), ("extensionVersion", .str "1.0.0"),
        ("vscodeVersion", .str "1.95.0"), ("platform", .str "linux"),
        ("weekStart", .str "2025-01-06"), ("events", .arr events),
        ("aggregatedStats", .obj [("thoughtsCreated", .num 1), ("graphOpened", .num 0),
          ("suggestRelatedUsed", .num 0), ("semanticSearchUsed", .num 0),
          ("semanticAiGraphUsed", .num 0), ("uniqueDaysActive", .num 1)])]

/-- A client event with the given timestamp. -/
def sampleClientEvent (ts : String) : TelemetryEvent :=
  { eventType := "thought_created", timestamp := ts,
    anonymousId := "0a1b2c3d-0000-4000-8000-123456789abc", metadata := none }

/-- A client batch around the given events. -/
def sampleBatch (events : List TelemetryEvent) : TelemetryData :=
  { sessionId := "1740000000000-abc123def", extensionVersion := "1.0.0",
    vscodeVersion := "1.95.0", platform := "linux", weekStart := "2025-01-06",
    events := events,
    aggregatedStats := { thoughtsCreated := 1, graphOpened := 0, suggestRelatedUsed := 0,
                         semanticSearchUsed := 0, semanticAiGraphUsed := 0,
                         uniqueDaysActive := 1 } }

/-- A client batch whose single event carries the given anonymousId (used to
reach the payload-size thresholds through the id's length). -/
def padBatch (aid : String) : TelemetryData :=
  sampleBatch [{ eventType := "thought_created", timestamp := "2025-01-01T00:00:00.000Z",
                 anonymousId := aid, metadata := none }]

/-- An n-character string of the letter a. -/
def bigString (n : Nat) : String := String.mk (List.replicate n 'a')

/-! ## Helper lemmas -/

theorem scheduleRetryState_batchFile (st : ClientState) :
    (scheduleRetryState st).batchFile = st.batchFile := by
  unfold scheduleRetryState
  cases scheduleRetry st.retryCount <;> rfl

/-! ## Claim theorems -/

/-- C4: for every stored firstActivationInstant and every current time
`now ≥ firstActivationInstant`, the next submission instant computed by
`setupSubmissionSchedule` equals `firstActivation + (k+1) * INTERVAL` for
`k = floor((now - firstActivation) / INTERVAL)`, and this is the smallest
instant of the form `firstActivation + m * INTERVAL` strictly greater than
`now`. -/
theorem nextSubmissionTime_correct (firstActivation now : Int)
    (h : firstActivation ≤ now) :
    nextSubmissionTime firstActivation now =
      firstActivation +
        (Int.fdiv (now - firstActivation) SUBMISSION_INTERVAL + 1) * SUBMISSION_INTERVAL ∧
    now < nextSubmissionTime firstActivation now ∧
    ∀ m : Int, now < firstActivation + m * SUBMISSION_INTERVAL →
      nextSubmissionTime firstActivation now ≤ firstActivation + m * SUBMISSION_INTERVAL := by
  have hI : (0 : Int) < SUBMISSION_INTERVAL := by norm_num [SUBMISSION_INTERVAL]
  have hmod := Int.fmod_add_fdiv (now - firstActivation) SUBMISSION_INTERVAL
  have h0 : 0 ≤ (now - firstActivation).fmod SUBMISSION_INTERVAL :=
    Int.fmod_nonneg (by omega) (le_of_lt hI)
  have h1 := Int.fmod_lt_of_pos (now - firstActivation) hI
  refine ⟨rfl, ?_, ?_⟩
  · simp only [nextSubmissionTime, SUBMISSION_INTERVAL] at *
    omega
  · intro m hm
    simp only [nextSubmissionTime, SUBMISSION_INTERVAL] at *
    omega

/-- C4 witness: at firstActivation 0 and now 100 the next instant is one full
interval after activation, which is greater than now. -/
theorem nextSubmissionTime_correct_witness :
    nextSubmissionTime 0 100 = 86400000 ∧ 100 < nextSubmissionTime 0 100 :=
  ⟨by decide, (nextSubmissionTime_correct 0 100 (by decide)).2.1⟩

/-- C5: when the connectivity probe fails at the initial attempt and at every
retry, exactly three retries are armed, with delays 30 minutes, 2 hours and
6 hours, the cycle ends idle (no submit attempt is made), and the retry table
is exhausted so no fourth retry can be armed. -/
theorem retry_exhaustion (probe : Nat → Bool) (h : ∀ i, probe i = false) :
    attemptSubmissionTrace probe = ([1800000, 7200000, 21600000], .idle) ∧
    scheduleRetry 3 = none := by
  have hp : probe = fun _ => false := funext h
  subst hp
  exact ⟨by decide, rfl⟩

/-- C5 witness: the always-failing probe. -/
theorem retry_exhaustion_witness :
    attemptSubmissionTrace (fun _ => false) = ([1800000, 7200000, 21600000], .idle) ∧
    scheduleRetry 3 = none :=
  retry_exhaustion (fun _ => false) (fun _ => rfl)

/-- C10: a submission attempt on a local batch with no events performs no
network request, raises no failure, deletes nothing and schedules no retry:
the state (batch file and aggregated counters included) is unchanged. -/
theorem submit_no_events (st : ClientState) (data : TelemetryData) (status : Nat)
    (hb : st.batchFile = some data) (he : data.events = []) :
    submitTelemetryData true st status = (st, .noEvents, false) := by
  simp [submitTelemetryData, hb, he]

/-- C10 witness: an empty sample batch under a would-be 200 response. -/
theorem submit_no_events_witness :
    submitTelemetryData true
      { batchFile := some (sampleBatch []), retryCount := 0, retryTimer := none } 200 =
      ({ batchFile := some (sampleBatch []), retryCount := 0, retryTimer := none },
        .noEvents, false) :=
  submit_no_events _ (sampleBatch []) 200 rfl rfl

/-- C6: with a non-empty local batch, any non-2xx response (429 included)
makes the attempt fail and leaves the local batch file in place, while a 2xx
response is the only way to succeed; on success the batch file is deleted,
the retry count is reset to 0 and the pending retry timer is cleared. -/
theorem submit_response_handling (st : ClientState) (data : TelemetryData) (status : Nat)
    (hb : st.batchFile = some data) (hne : data.events ≠ []) :
    ((status < 200 ∨ 299 < status) →
      submitTelemetryData true st status = (scheduleRetryState st, .failed, true) ∧
      (scheduleRetryState st).batchFile = some data) ∧
    (200 ≤ status ∧ status ≤ 299 →
      submitTelemetryData true st status =
        ({ batchFile := none, retryCount := 0, retryTimer := none }, .success, true)) ∧
    ((submitTelemetryData true st status).2.1 = .success ↔ 200 ≤ status ∧ status ≤ 299) := by
  have hlen : ¬(data.events.length = 0) := by
    simpa [List.length_eq_zero] using hne
  by_cases hok : 200 ≤ status ∧ status ≤ 299
  · refine ⟨fun hbad => absurd hok (by omega), fun _ => ?_, ?_⟩
    · simp [submitTelemetryData, hb, hlen, sendToBackend, hok]
    · simp [submitTelemetryData, hb, hlen, sendToBackend, hok]
  · have hno : status < 200 ∨ 299 < status := by omega
    refine ⟨fun _ => ⟨?_, ?_⟩, fun h => absurd h hok, ?_⟩
    · by_cases h429 : status = 429 <;>
        simp [submitTelemetryData, hb, hlen, sendToBackend, hok, h429]
    · exact hb ▸ scheduleRetryState_batchFile st
    · by_cases h429 : status = 429 <;>
        simp [submitTelemetryData, hb, hlen, sendToBackend, hok, h429]

/-- C6 witness: at status 429 the sample one-event batch survives and the
attempt fails; at status 200 the file is deleted and the retry state reset. -/
theorem submit_response_handling_witness :
    (submitTelemetryData true
      { batchFile := some (sampleBatch [sampleClientEvent "2025-01-01T00:00:00.000Z"]),
        retryCount := 0, retryTimer := none } 429).2.1 = .failed ∧
    submitTelemetryData true
      { batchFile := some (sampleBatch [sampleClientEvent "2025-01-01T00:00:00.000Z"]),
        retryCount := 0, retryTimer := none } 200 =
      ({ batchFile := none, retryCount := 0, retryTimer := none }, .success, true) := by
  constructor
  · have h := (submit_response_handling
      { batchFile := some (sampleBatch [sampleClientEvent "2025-01-01T00:00:00.000Z"]),
        retryCount := 0, retryTimer := none }
      (sampleBatch [sampleClientEvent "2025-01-01T00:00:00.000Z"]) 429 rfl (by decide)).1
      (by omega)
    rw [h.1]
  · exact (submit_response_handling
      { batchFile := some (sampleBatch [sampleClientEvent "2025-01-01T00:00:00.000Z"]),
        retryCount := 0, retryTimer := none }
      (sampleBatch [sampleClientEvent "2025-01-01T00:00:00.000Z"]) 200 rfl (by decide)).2.1
      (by omega)

/-- C9: the retention pass keeps every event younger than the 7-day window,
removes every event older than the window (every surviving event's age is
within it), and the file is written back exactly when some event fails the
retention filter; when nothing expires the batch is untouched. -/
theorem cleanOldData_retention (now : Int) (data : TelemetryData) :
    (∀ e ∈ data.events, ∀ t, parseIsoUtc e.timestamp = some t →
        now - t < MAX_DATA_AGE → e ∈ (cleanOldData now data).1.events) ∧
    (∀ e ∈ (cleanOldData now data).1.events, ∀ t, parseIsoUtc e.timestamp = some t →
        now - t < MAX_DATA_AGE) ∧
    ((cleanOldData now data).2 = true ↔ ∃ e ∈ data.events, ¬eventKept now e = true) ∧
    ((cleanOldData now data).2 = false → cleanOldData now data = (data, false)) := by
  have hkept : ∀ (e : TelemetryEvent) (t : Int), parseIsoUtc e.timestamp = some t →
      (eventKept now e = true ↔ now - t < MAX_DATA_AGE) := by
    intro e t hp
    simp [eventKept, hp]
    omega
  by_cases hw : (data.events.filter (eventKept now)).length < data.events.length
  · have hres1 : (cleanOldData now data).1.events = data.events.filter (eventKept now) := by
      simp [cleanOldData, hw]
    have hres2 : (cleanOldData now data).2 = true := by
      simp [cleanOldData, hw]
    refine ⟨?_, ?_, ?_, ?_⟩
    · intro e he t hp ht
      rw [hres1]
      exact List.mem_filter.2 ⟨he, (hkept e t hp).2 ht⟩
    · intro e he t hp
      rw [hres1] at he
      exact (hkept e t hp).1 (List.mem_filter.1 he).2
    · rw [hres2]
      simpa using List.length_filter_lt_length_iff_exists.1 hw
    · intro h
      rw [hres2] at h
      exact absurd h (by simp)
  · have hall : ∀ e ∈ data.events, eventKept now e = true := by
      have hlen : (data.events.filter (eventKept now)).length = data.events.length := by
        have := List.length_filter_le (eventKept now) data.events
        omega
      have hfe := (List.filter_sublist data.events).eq_of_length hlen
      intro e he
      rw [← hfe] at he
      exact (List.mem_filter.1 he).2
    have hres : cleanOldData now data = (data, false) := by
      simp [cleanOldData, hw]
    refine ⟨?_, ?_, ?_, fun _ => hres⟩
    · intro e he _ _ _
      rw [hres]
      exact he
    · intro e he t hp
      rw [hres] at he
      exact (hkept e t hp).1 (hall e he)
    · rw [hres]
      refine ⟨fun h => absurd h (by simp), ?_⟩
      rintro ⟨e, he, hk⟩
      exact absurd (hall e he) hk

/-- C9 witness: with now one window past the epoch plus two days, a fresh
event survives and an event older than two windows is removed, with
write-back. -/
theorem cleanOldData_retention_witness :
    (cleanOldData 1340000000000
      (sampleBatch [sampleClientEvent "2012-06-18T00:00:00.000Z",
                    sampleClientEvent "2012-05-01T00:00:00.000Z"])).1.events =
      [sampleClientEvent "2012-06-18T00:00:00.000Z"] ∧
    (cleanOldData 1340000000000
      (sampleBatch [sampleClientEvent "2012-06-18T00:00:00.000Z",
                    sampleClientEvent "2012-05-01T00:00:00.000Z"])).2 = true := by
  have h := cleanOldData_retention 1340000000000
    (sampleBatch [sampleClientEvent "2012-06-18T00:00:00.000Z",
                  sampleClientEvent "2012-05-01T00:00:00.000Z"])
  refine ⟨by decide, h.2.2.1.2 ⟨sampleClientEvent "2012-05-01T00:00:00.000Z", by decide, by decide⟩⟩

/-- Requests of one identity inside a window never reset it: starting from a
stored count k at window start t0, n further in-window requests are all
admitted while k + n stays within the limit, leaving count k + n. -/
theorem rateLimit_invariant (t0 : Int) (ts : List Int) :
    ∀ k : Nat, 1 ≤ k → k + ts.length ≤ RATE_LIMIT →
    (∀ t ∈ ts, t - t0 ≤ RATE_WINDOW) →
    rateDecisions (some ⟨k, t0⟩) ts = List.replicate ts.length none ∧
    rateFold (some ⟨k, t0⟩) ts = some ⟨k + ts.length, t0⟩ := by
  induction ts with
  | nil => intro k _ _ _; simp [rateDecisions, rateFold]
  | cons t ts ih =>
    intro k hk hcap hin
    have hwin : ¬(RATE_WINDOW < t - t0) := by
      have := hin t (List.mem_cons_self t ts)
      omega
    have hcount : ¬(RATE_LIMIT ≤ k) := by
      simp [List.length_cons] at hcap
      omega
    have step : rateLimit (some ⟨k, t0⟩) t = (none, ⟨k + 1, t0⟩) := by
      simp [rateLimit, hwin, hcount]
    have ihr := ih (k + 1) (by omega) (by simp at hcap ⊢; omega)
      (fun t' ht' => hin t' (List.mem_cons_of_mem _ ht'))
    refine ⟨?_, ?_⟩
    · simp [rateDecisions, step, ihr.1, List.replicate_succ]
    · simp [rateFold, step, ihr.2]
      omega

theorem rateDecisions_append (e : Option RateEntry) (xs ys : List Int) :
    rateDecisions e (xs ++ ys) = rateDecisions e xs ++ rateDecisions (rateFold e xs) ys := by
  induction xs generalizing e with
  | nil => simp [rateDecisions, rateFold]
  | cons x xs ih => simp [rateDecisions, rateFold, ih]

theorem rateFold_append (e : Option RateEntry) (xs ys : List Int) :
    rateFold e (xs ++ ys) = rateFold (rateFold e xs) ys := by
  induction xs generalizing e with
  | nil => simp [rateFold]
  | cons x xs ih => simp [rateFold, ih]

/-- C3: per client identity, the first request initializes the entry to
count 1 at window start now and is admitted; requests 2..100 within the
window are admitted; the 101st request within the window is answered with
the 429 response; and a request after the window has elapsed resets the
entry to count 1 at the new instant and is admitted. -/
theorem rateLimit_window (t0 : Int) (ts : List Int) (hlen : ts.length = 99)
    (hin : ∀ t ∈ ts, t - t0 ≤ RATE_WINDOW) (t101 : Int) (h101 : t101 - t0 ≤ RATE_WINDOW)
    (tlate : Int) (hlate : RATE_WINDOW < tlate - t0) :
    rateLimit none t0 = (none, { count := 1, windowStart := t0 }) ∧
    rateDecisions none (t0 :: ts) = List.replicate 100 none ∧
    rateDecisions none ((t0 :: ts) ++ [t101]) =
      List.replicate 100 none ++ [some rateLimited] ∧
    rateLimit (rateFold none ((t0 :: ts) ++ [t101])) tlate =
      (none, { count := 1, windowStart := tlate }) := by
  have inv := rateLimit_invariant t0 ts 1 (by omega) (by simp [RATE_LIMIT]; omega) hin
  have first : rateLimit none t0 = (none, ⟨1, t0⟩) := rfl
  have dec1 : rateDecisions none (t0 :: ts) = List.replicate 100 none := by
    have : (100 : Nat) = ts.length + 1 := by omega
    rw [this, List.replicate_succ]
    simp [rateDecisions, first, inv.1]
  have fold1 : rateFold none (t0 :: ts) = some ⟨100, t0⟩ := by
    have h2 := inv.2
    rw [hlen] at h2
    simp [rateFold, first]
    exact h2
  have h101' : t101 - t0 ≤ 3600000 := by simpa [RATE_WINDOW] using h101
  have hlate' : 3600000 < tlate - t0 := by simpa [RATE_WINDOW] using hlate
  have rej : rateLimit (some ⟨100, t0⟩) t101 = (some rateLimited, ⟨100, t0⟩) := by
    simp only [rateLimit, RATE_WINDOW, RATE_LIMIT]
    rw [if_neg (by omega), if_pos (by omega)]
  refine ⟨first, dec1, ?_, ?_⟩
  · rw [rateDecisions_append, dec1, fold1]
    simp [rateDecisions, rej]
  · rw [rateFold_append, fold1]
    have hfold : rateFold (some ⟨100, t0⟩) [t101] = some ⟨100, t0⟩ := by
      simp [rateFold, rej]
    rw [hfold]
    simp only [rateLimit, RATE_WINDOW]
    rw [if_pos (by omega)]

/-- C3 witness: 100 immediate requests are admitted, the 101st is refused
with the 429 body, and a request one millisecond past the window is admitted
with a fresh entry. -/
theorem rateLimit_window_witness :
    rateDecisions none ((0 :: List.replicate 99 0) ++ [0]) =
      List.replicate 100 none ++ [some rateLimited] ∧
    rateLimit (rateFold none ((0 :: List.replicate 99 0) ++ [0])) 3600001 =
      (none, { count := 1, windowStart := 3600001 }) := by
  have h := rateLimit_window 0 (List.replicate 99 0) (by decide)
    (fun t ht => by rw [List.eq_of_mem_replicate ht]; decide) 0 (by decide)
    3600001 (by decide)
  exact ⟨h.2.2.1, h.2.2.2⟩

/-- C8: the accepted record does store a salted one-way hash of the caller
address under `ipHash`, and an environment salt is concatenated when present;
but when the salt env var is absent, operator precedence makes the code hash
`clientIP + "undefined"` rather than using the documented
`'default-salt'` fallback, which the dead `|| 'default-salt'` operand shows
was the intent.  Evaluated at an accepted batch from 1.2.3.4 with no salt
configured. -/
theorem ipHash_default_salt_bug :
    ipHashInput "1.2.3.4" (some "pepper") = "1.2.3.4pepper" ∧
    ipHashInput "1.2.3.4" none = "1.2.3.4undefined" ∧
    intendedIpHashInput "1.2.3.4" none = "1.2.3.4default-salt" ∧
    hashAnonymousId (ipHashInput "1.2.3.4" none) ≠
      hashAnonymousId (intendedIpHashInput "1.2.3.4" none) ∧
    jsFieldD ((postTelemetry (sampleBody [sampleEvent "thought_created" "anon-1"])
        "1.2.3.4" none none "2025-01-07T00:00:00.000Z").2.getD .null) "ipHash" =
      .str (hashAnonymousId "1.2.3.4undefined") := by
  set_option maxRecDepth 4000 in
  exact ⟨rfl, rfl, rfl, by decide, by decide⟩

theorem string_mk_length (l : List Char) : (String.mk l).length = l.length := rfl

theorem flatten_singletons (l : List Char) : (l.map (fun c => [c])).flatten = l := by
  induction l with
  | nil => rfl
  | cons c cs ih => simp [ih]

/-- Characters above the control range other than the quote and the backslash
are passed through unescaped by `JSON.stringify`. -/
theorem escapeChar_clean (c : Char) (h1 : 31 < c.toNat) (h2 : c.toNat ≠ 34) (h3 : c.toNat ≠ 92) :
    escapeChar c = [c] := by
  have e34 : c ≠ Char.ofNat 34 := fun h => h2 (by rw [h]; decide)
  have e92 : c ≠ Char.ofNat 92 := fun h => h3 (by rw [h]; decide)
  have e8 : c ≠ Char.ofNat 8 := fun h => absurd h1 (by rw [h]; decide)
  have e9 : c ≠ Char.ofNat 9 := fun h => absurd h1 (by rw [h]; decide)
  have e10 : c ≠ Char.ofNat 10 := fun h => absurd h1 (by rw [h]; decide)
  have e12 : c ≠ Char.ofNat 12 := fun h => absurd h1 (by rw [h]; decide)
  have e13 : c ≠ Char.ofNat 13 := fun h => absurd h1 (by rw [h]; decide)
  unfold escapeChar
  rw [if_neg e34, if_neg e92, if_neg e8, if_neg e9, if_neg e10, if_neg e12, if_neg e13,
    if_neg (by omega : ¬c.toNat < 32)]

/-- A string of clean characters serializes to itself plus two quotes. -/
theorem jsQuote_len_clean (s : String)
    (h : ∀ c ∈ s.data, 31 < c.toNat ∧ c.toNat ≠ 34 ∧ c.toNat ≠ 92) :
    (jsQuote s).length = s.length + 2 := by
  unfold jsQuote
  have hmap : s.data.map escapeChar = s.data.map (fun c => [c]) :=
    List.map_congr_left (fun c hc => escapeChar_clean c (h c hc).1 (h c hc).2.1 (h c hc).2.2)
  rw [hmap, flatten_singletons, string_mk_length, List.length_cons, List.length_append,
    List.length_singleton, show s.data.length = s.length from rfl]

theorem bigString_len (n : Nat) : (bigString n).length = n := by
  rw [bigString, string_mk_length, List.length_replicate]

theorem bigString_clean (n : Nat) :
    ∀ c ∈ (bigString n).data, 31 < c.toNat ∧ c.toNat ≠ 34 ∧ c.toNat ≠ 92 := by
  intro c hc
  have hca : c = 'a' := List.eq_of_mem_replicate (by simpa [bigString] using hc)
  subst hca
  decide

set_option maxRecDepth 20000 in
/-- Serialized size of the one-event batch: a fixed 381-character frame plus
the anonymousId. -/
theorem padBatch_len (aid : String)
    (h : ∀ c ∈ aid.data, 31 < c.toNat ∧ c.toNat ≠ 34 ∧ c.toNat ≠ 92) :
    (jsonStringify (encodeTelemetryData (padBatch aid))).length = 381 + aid.length := by
  have hq : (jsQuote aid).length = aid.length + 2 := jsQuote_len_clean aid h
  simp only [padBatch, sampleBatch]
  simp only [encodeTelemetryData, encodeEvent, encodeStats, List.map]
  simp only [jsonStringify]
  simp only [stringifyMembers]
  simp only [jsonStringify]
  simp only [stringifyElems]
  simp only [jsonStringify]
  simp only [stringifyMembers]
  simp only [jsonStringify, List.append_nil]
  simp only [String.length_append, hq,
    show (jsQuote "sessionId").length = 11 from by decide,
    show (jsQuote "1740000000000-abc123def").length = 25 from by decide,
    show (jsQuote "extensionVersion").length = 18 from by decide,
    show (jsQuote "1.0.0").length = 7 from by decide,
    show (jsQuote "vscodeVersion").length = 15 from by decide,
    show (jsQuote "1.95.0").length = 8 from by decide,
    show (jsQuote "platform").length = 10 from by decide,
    show (jsQuote "linux").length = 7 from by decide,
    show (jsQuote "weekStart").length = 11 from by decide,
    show (jsQuote "2025-01-06").length = 12 from by decide,
    show (jsQuote "events").length = 8 from by decide,
    show (jsQuote "eventType").length = 11 from by decide,
    show (jsQuote "thought_created").length = 17 from by decide,
    show (jsQuote "timestamp").length = 11 from by decide,
    show (jsQuote "2025-01-01T00:00:00.000Z").length = 26 from by decide,
    show (jsQuote "anonymousId").length = 13 from by decide,
    show (jsQuote "aggregatedStats").length = 17 from by decide,
    show (jsQuote "thoughtsCreated").length = 17 from by decide,
    show (jsQuote "graphOpened").length = 13 from by decide,
    show (jsQuote "suggestRelatedUsed").length = 20 from by decide,
    show (jsQuote "semanticSearchUsed").length = 20 from by decide,
    show (jsQuote "semanticAiGraphUsed").length = 21 from by decide,
    show (jsQuote "uniqueDaysActive").length = 18 from by decide,
    show (toString ((1 : Nat) : Int)).length = 1 from by decide,
    show (toString ((0 : Nat) : Int)).length = 1 from by decide,
    show ("\x7b" : String).length = 1 from by decide,
    show ("\x7d" : String).length = 1 from by decide,
    show ("[" : String).length = 1 from by decide,
    show ("]" : String).length = 1 from by decide,
    show (":" : String).length = 1 from by decide,
    show ("," : String).length = 1 from by decide]
  omega

/-- C7 (amended): when the serialized batch exceeds the client's 900000-char
safety margin, `sendToBackend` truncates the events to the most recent 500
(`slice(-500)`) and leaves `aggregatedStats` unchanged. -/
theorem truncation_behavior (d : TelemetryData)
    (h : 900000 < (jsonStringify (encodeTelemetryData d)).length) :
    truncateForSend d = { d with events := lastN 500 d.events } ∧
    (truncateForSend d).aggregatedStats = d.aggregatedStats ∧
    (truncateForSend d).events = lastN 500 d.events := by
  have ht : truncateForSend d = { d with events := lastN 500 d.events } := by
    unfold truncateForSend
    rw [if_pos h]
  exact ⟨ht, by rw [ht], by rw [ht]⟩

/-- C7 witness: a batch serializing to 900381 characters is truncated to its
last 500 events with its aggregated counters intact. -/
theorem truncation_behavior_witness :
    (truncateForSend (padBatch (bigString 900000))).events =
      lastN 500 (padBatch (bigString 900000)).events ∧
    (truncateForSend (padBatch (bigString 900000))).aggregatedStats =
      (padBatch (bigString 900000)).aggregatedStats := by
  have h := truncation_behavior (padBatch (bigString 900000))
    (by rw [padBatch_len _ (bigString_clean 900000), bigString_len]; norm_num)
  exact ⟨h.2.2, h.2.1⟩

/-- Any validation verdict with `valid = false` is answered by the generic
400 and nothing is persisted. -/
theorem postTelemetry_invalid (body : Json) (ip : String) (s v : Option String) (ra : String)
    (res : ValidationResult) (data : Json)
    (hv : validateTelemetryData body = .ok (res, data)) (hres : res.valid = false) :
    postTelemetry body ip s v ra = (respondInvalid, none) := by
  unfold postTelemetry
  rw [hv]
  simp [postAfterValidate, hres]

/-- C7 counterexample: a batch serializing to 600381 characters is inside the
client's 900000-char safety margin, so the client sends it untruncated, yet
the server's validator rejects it under its 500000-char size rule (the margin
is under the 1mb body-parser limit, not under the validator's ceiling). -/
theorem clientMargin_counterexample :
    truncateForSend (padBatch (bigString 600000)) = padBatch (bigString 600000) ∧
    validateTelemetryData (encodeTelemetryData (padBatch (bigString 600000))) =
      .ok ({ valid := false, error := some "Data payload too large" },
        encodeTelemetryData (padBatch (bigString 600000))) ∧
    postTelemetry (encodeTelemetryData (padBatch (bigString 600000))) "1.2.3.4" none none
      "2025-01-07T00:00:00.000Z" = (respondInvalid, none) := by
  have hlen : (jsonStringify (encodeTelemetryData (padBatch (bigString 600000)))).length
      = 600381 := by
    rw [padBatch_len _ (bigString_clean 600000), bigString_len]
  have htr : truncateForSend (padBatch (bigString 600000)) = padBatch (bigString 600000) := by
    unfold truncateForSend
    rw [hlen, if_neg (by norm_num)]
  have hval : validateTelemetryData (encodeTelemetryData (padBatch (bigString 600000))) =
      .ok ({ valid := false, error := some "Data payload too large" },
        encodeTelemetryData (padBatch (bigString 600000))) := by
    unfold validateTelemetryData
    rw [hlen, if_pos (by norm_num)]
  exact ⟨htr, hval, postTelemetry_invalid _ _ _ _ _ _ _ hval rfl⟩

theorem findMissingField_some (body : Json) (fs : List String)
    (h : ∃ f ∈ fs, jsHasField body f = false) :
    ∃ f', findMissingField body fs = some f' := by
  induction fs with
  | nil => simp at h
  | cons g gs ih =>
    by_cases hg : jsHasField body g
    · have h' : ∃ f ∈ gs, jsHasField body f = false := by
        rcases h with ⟨f, hf, hff⟩
        rcases List.mem_cons.1 hf with rfl | hmem
        · rw [hg] at hff; cases hff
        · exact ⟨f, hmem, hff⟩
      rcases ih h' with ⟨f', hf'⟩
      exact ⟨f', by simpa [findMissingField, hg] using hf'⟩
    · exact ⟨g, by simp [findMissingField, hg]⟩

theorem validateEvents_err (es : List Json) (hnn : ∀ e ∈ es, e ≠ Json.null)
    (hbad : ∃ e ∈ es, badEvent e) :
    ∃ err es', validateEvents es = .ok (some err, es') := by
  induction es with
  | nil => simp at hbad
  | cons e rest ih =>
    have hne : ¬(e = Json.null) := hnn e (List.mem_cons_self e rest)
    by_cases hstruct :
        (!(jsTruthy (jsFieldD e "eventType") && jsTruthy (jsFieldD e "timestamp") &&
           jsTruthy (jsFieldD e "anonymousId"))) = true
    · refine ⟨"Invalid event structure", e :: rest, ?_⟩
      simp only [validateEvents, if_neg hne]
      rw [if_pos hstruct]
    · by_cases hwl : (!(inWhitelist (sanitizeInput (jsFieldD e "eventType")))) = true
      · refine ⟨"Invalid event type",
          (jsSetField (jsSetField e "eventType" (sanitizeInput (jsFieldD e "eventType")))
            "anonymousId" (sanitizeInput (jsFieldD e "anonymousId"))) :: rest, ?_⟩
        simp only [validateEvents, if_neg hne]
        rw [if_neg hstruct, if_pos hwl]
      · have hrest : ∃ e' ∈ rest, badEvent e' := by
          rcases hbad with ⟨f, hf, hfb⟩
          rcases List.mem_cons.1 hf with rfl | hmem
          · exfalso
            simp only [Bool.not_eq_true', Bool.and_eq_false_iff] at hstruct
            simp only [Bool.not_eq_true'] at hwl
            rcases hfb with h | h | h | h
            · simp [h] at hstruct
            · simp [h] at hstruct
            · simp [h] at hstruct
            · exact hwl h
          · exact ⟨f, hmem, hfb⟩
        rcases ih (fun x hx => hnn x (List.mem_cons_of_mem _ hx)) hrest with ⟨err, es2, hes2⟩
        refine ⟨err,
          (jsSetField (jsSetField e "eventType" (sanitizeInput (jsFieldD e "eventType")))
            "anonymousId" (sanitizeInput (jsFieldD e "anonymousId"))) :: es2, ?_⟩
        simp only [validateEvents, if_neg hne]
        rw [if_neg hstruct, if_neg hwl, hes2]

/-- Every rejection trigger makes `validateTelemetryData` return an invalid
verdict (never a thrown error): a missing required field, a non-array
`events`, more than 1000 events, or (absent null events) any bad event. -/
theorem validate_rejects (body : Json) :
    ((∃ f ∈ requiredFields, jsHasField body f = false) →
      ∃ res data, validateTelemetryData body = .ok (res, data) ∧ res.valid = false) ∧
    ((¬ ∃ es, jsFieldD body "events" = Json.arr es) →
      ∃ res data, validateTelemetryData body = .ok (res, data) ∧ res.valid = false) ∧
    (∀ es, jsFieldD body "events" = Json.arr es →
      (1000 < es.length →
        ∃ res data, validateTelemetryData body = .ok (res, data) ∧ res.valid = false) ∧
      ((∀ e ∈ es, e ≠ Json.null) → (∃ e ∈ es, badEvent e) →
        ∃ res data, validateTelemetryData body = .ok (res, data) ∧ res.valid = false)) := by
  by_cases hsize : 500000 < (jsonStringify body).length
  · have hval : validateTelemetryData body =
        .ok ({ valid := false, error := some "Data payload too large" }, body) := by
      unfold validateTelemetryData
      rw [if_pos hsize]
    exact ⟨fun _ => ⟨_, _, hval, rfl⟩, fun _ => ⟨_, _, hval, rfl⟩, fun es _ =>
      ⟨fun _ => ⟨_, _, hval, rfl⟩, fun _ _ => ⟨_, _, hval, rfl⟩⟩⟩
  · cases hmf : findMissingField body requiredFields with
    | some f =>
      have hval : validateTelemetryData body =
          .ok ({ valid := false, error := some ("Missing required field: " ++ f) }, body) := by
        unfold validateTelemetryData
        rw [if_neg hsize, hmf]
      exact ⟨fun _ => ⟨_, _, hval, rfl⟩, fun _ => ⟨_, _, hval, rfl⟩, fun es _ =>
        ⟨fun _ => ⟨_, _, hval, rfl⟩, fun _ _ => ⟨_, _, hval, rfl⟩⟩⟩
    | none =>
      refine ⟨?_, ?_, ?_⟩
      · intro hmiss
        rcases findMissingField_some body requiredFields hmiss with ⟨f', hf'⟩
        rw [hmf] at hf'
        cases hf'
      · intro hnarr
        cases hev : jsFieldD body "events" with
        | arr es => exact absurd ⟨es, hev⟩ hnarr
        | null =>
          have hval : validateTelemetryData body =
              .ok ({ valid := false, error := some "Events must be an array" }, body) := by
            unfold validateTelemetryData
            rw [if_neg hsize, hmf, hev]
          exact ⟨_, _, hval, rfl⟩
        | bool b =>
          have hval : validateTelemetryData body =
              .ok ({ valid := false, error := some "Events must be an array" }, body) := by
            unfold validateTelemetryData
            rw [if_neg hsize, hmf, hev]
          exact ⟨_, _, hval, rfl⟩
        | num n =>
          have hval : validateTelemetryData body =
              .ok ({ valid := false, error := some "Events must be an array" }, body) := by
            unfold validateTelemetryData
            rw [if_neg hsize, hmf, hev]
          exact ⟨_, _, hval, rfl⟩
        | str s =>
          have hval : validateTelemetryData body =
              .ok ({ valid := false, error := some "Events must be an array" }, body) := by
            unfold validateTelemetryData
            rw [if_neg hsize, hmf, hev]
          exact ⟨_, _, hval, rfl⟩
        | obj fs =>
          have hval : validateTelemetryData body =
              .ok ({ valid := false, error := some "Events must be an array" }, body) := by
            unfold validateTelemetryData
            rw [if_neg hsize, hmf, hev]
          exact ⟨_, _, hval, rfl⟩
      · intro es hes
        by_cases hcount : 1000 < es.length
        · have hval : validateTelemetryData body =
              .ok ({ valid := false, error := some "Too many events in single submission" },
                body) := by
            unfold validateTelemetryData
            rw [if_neg hsize, hmf, hes]
            simp only [if_pos hcount]
          exact ⟨fun _ => ⟨_, _, hval, rfl⟩, fun _ _ => ⟨_, _, hval, rfl⟩⟩
        · refine ⟨fun hc => absurd hc hcount, ?_⟩
          intro hnn hbad
          rcases validateEvents_err es hnn hbad with ⟨err, es', hve⟩
          have hval : validateTelemetryData body =
              .ok ({ valid := false, error := some err },
                jsSetField body "events" (.arr es')) := by
            unfold validateTelemetryData
            rw [if_neg hsize, hmf, hes]
            simp only [if_neg hcount]
            rw [hve]
          exact ⟨_, _, hval, rfl⟩

/-- C2 (amended): a submitted body missing a required top-level field, or
whose events value is not an array, or with more than 1000 events, or whose
events (none of them JSON null) include one lacking a truthy eventType,
timestamp or anonymousId or whose sanitized eventType is outside the
whitelist, is answered 400 with the generic "Invalid data format" body and
nothing is persisted; a single bad event rejects the whole batch. -/
theorem validation_all_or_nothing (body : Json) (ip : String)
    (saltEnv verEnv : Option String) (ra : String) :
    ((∃ f ∈ requiredFields, jsHasField body f = false) →
      postTelemetry body ip saltEnv verEnv ra = (respondInvalid, none)) ∧
    ((¬ ∃ es, jsFieldD body "events" = Json.arr es) →
      postTelemetry body ip saltEnv verEnv ra = (respondInvalid, none)) ∧
    (∀ es, jsFieldD body "events" = Json.arr es →
      (1000 < es.length → postTelemetry body ip saltEnv verEnv ra = (respondInvalid, none)) ∧
      ((∀ e ∈ es, e ≠ Json.null) → (∃ e ∈ es, badEvent e) →
        postTelemetry body ip saltEnv verEnv ra = (respondInvalid, none))) := by
  have hv := validate_rejects body
  refine ⟨fun h => ?_, fun h => ?_, fun es hes => ⟨fun h => ?_, fun hnn hbad => ?_⟩⟩
  · rcases hv.1 h with ⟨res, data, heq, hres⟩
    exact postTelemetry_invalid _ _ _ _ _ _ _ heq hres
  · rcases hv.2.1 h with ⟨res, data, heq, hres⟩
    exact postTelemetry_invalid _ _ _ _ _ _ _ heq hres
  · rcases (hv.2.2 es hes).1 h with ⟨res, data, heq, hres⟩
    exact postTelemetry_invalid _ _ _ _ _ _ _ heq hres
  · rcases (hv.2.2 es hes).2 hnn hbad with ⟨res, data, heq, hres⟩
    exact postTelemetry_invalid _ _ _ _ _ _ _ heq hres

/-- C2 witness: an empty object (missing all fields) and a batch with the
unknown eventType "bogus" are both rejected with the generic 400 and no
record. -/
theorem validation_all_or_nothing_witness :
    postTelemetry (Json.obj []) "1.2.3.4" none none "RA" = (respondInvalid, none) ∧
    postTelemetry (sampleBody [sampleEvent "bogus" "anon-1"]) "1.2.3.4" none none "RA" =
      (respondInvalid, none) := by
  constructor
  · exact (validation_all_or_nothing (Json.obj []) "1.2.3.4" none none "RA").1
      ⟨"sessionId", by decide, by decide⟩
  · exact ((validation_all_or_nothing (sampleBody [sampleEvent "bogus" "anon-1"]) "1.2.3.4"
      none none "RA").2.2 [sampleEvent "bogus" "anon-1"] (by decide)).2
      (by decide) ⟨sampleEvent "bogus" "anon-1", by decide,
        Or.inr (Or.inr (Or.inr (by decide)))⟩

/-- C2 counterexample: the submitted eventType "thought_created<" is outside
the fixed whitelist, yet the batch is not answered 400: validation sanitizes
`event.eventType` in place before the whitelist check, so the stripped value
passes, the response is a 200 and a record is persisted. -/
theorem whitelist_bypass_counterexample :
    validEventTypes.contains "thought_created<" = false ∧
    (postTelemetry (sampleBody [sampleEvent "thought_created<" "anon-1"]) "1.2.3.4" none none
      "2025-01-07T00:00:00.000Z").1.status = 200 ∧
    (postTelemetry (sampleBody [sampleEvent "thought_created<" "anon-1"]) "1.2.3.4" none none
      "2025-01-07T00:00:00.000Z").2.isSome = true := by
  set_option maxRecDepth 4000 in
  exact ⟨rfl, by decide, by decide⟩

theorem lookup_setKey_self (fs : List (String × Json)) (k : String) (v : Json) :
    (setKey fs k v).lookup k = some v := by
  induction fs with
  | nil => simp [setKey, List.lookup]
  | cons kv rest ih =>
    obtain ⟨k0, v0⟩ := kv
    by_cases hk : k0 = k
    · simp [setKey, hk, List.lookup]
    · have hbeq : (k == k0) = false := beq_eq_false_iff_ne.2 (fun h => hk h.symm)
      simp [setKey, hk, List.lookup_cons, hbeq, ih]

theorem lookup_setKey_ne (fs : List (String × Json)) (k k' : String) (v : Json)
    (h : k ≠ k') : (setKey fs k' v).lookup k = fs.lookup k := by
  have hbk : (k == k') = false := beq_eq_false_iff_ne.2 h
  induction fs with
  | nil => simp [setKey, List.lookup_cons, hbk]
  | cons kv rest ih =>
    obtain ⟨k0, v0⟩ := kv
    by_cases hk : k0 = k'
    · subst hk
      simp [setKey, List.lookup_cons, hbk]
    · simp only [setKey, if_neg hk]
      rw [List.lookup_cons, List.lookup_cons]
      cases hbeq : k == k0 with
      | true => rfl
      | false => exact ih

theorem lookup_removeKey_self (fs : List (String × Json)) (k : String) :
    (removeKey fs k).lookup k = none := by
  induction fs with
  | nil => simp [removeKey]
  | cons kv rest ih =>
    obtain ⟨k0, v0⟩ := kv
    by_cases hk : k0 = k
    · simpa [removeKey, List.filter_cons, hk] using ih
    · have hbeq : (k0 == k) = false := beq_eq_false_iff_ne.2 hk
      have hbeq2 : (k == k0) = false := beq_eq_false_iff_ne.2 (fun h => hk h.symm)
      simp only [removeKey, List.filter_cons] at ih ⊢
      rw [if_pos (by simp [hbeq])]
      rw [List.lookup_cons]
      simp [hbeq2, ih]

theorem lookup_removeKey_ne (fs : List (String × Json)) (k k' : String) (h : k ≠ k') :
    (removeKey fs k').lookup k = fs.lookup k := by
  induction fs with
  | nil => simp [removeKey]
  | cons kv rest ih =>
    obtain ⟨k0, v0⟩ := kv
    by_cases hk : k0 = k'
    · subst hk
      have hbeq : (k == k0) = false := beq_eq_false_iff_ne.2 h
      simp only [removeKey, List.filter_cons] at ih ⊢
      rw [if_neg (by simp)]
      rw [List.lookup_cons]
      simp [hbeq, ih]
    · have hbeq : (k0 == k') = false := beq_eq_false_iff_ne.2 hk
      simp only [removeKey, List.filter_cons] at ih ⊢
      rw [if_pos (by simp [hbeq])]
      rw [List.lookup_cons, List.lookup_cons]
      cases hbeq2 : k == k0 with
      | true => rfl
      | false => simpa using ih

theorem jsFieldD_setField_ne (e : Json) (k k' : String) (v : Json) (h : k ≠ k') :
    jsFieldD (jsSetField e k' v) k = jsFieldD e k := by
  cases e <;> simp [jsSetField, jsFieldD, lookup_setKey_ne _ _ _ _ h]

theorem jsFieldD_setField_obj (fs : List (String × Json)) (k : String) (v : Json) :
    jsFieldD (jsSetField (.obj fs) k v) k = v := by
  simp [jsSetField, jsFieldD, lookup_setKey_self]

/-- Setting a field either takes effect (object base) or is a no-op on a
non-object base, whose fields all read as null. -/
theorem jsFieldD_setField_cases (e : Json) (k : String) (v : Json) :
    jsFieldD (jsSetField e k v) k = v ∨
    (jsSetField e k v = e ∧ jsFieldD e k = Json.null) := by
  cases e with
  | obj fs => exact Or.inl (jsFieldD_setField_obj fs k v)
  | null => exact Or.inr ⟨rfl, rfl⟩
  | bool b => exact Or.inr ⟨rfl, rfl⟩
  | num n => exact Or.inr ⟨rfl, rfl⟩
  | str s => exact Or.inr ⟨rfl, rfl⟩
  | arr xs => exact Or.inr ⟨rfl, rfl⟩

theorem foldl_compress_length (bs : List (List Nat)) :
    ∀ hs : List Nat,
      hs.length = 8 →
      (bs.foldl (fun h8 block => compressBlock h8 (toWords block)) hs).length = 8 := by
  induction bs with
  | nil => intro hs h; simpa using h
  | cons b rest ih =>
    intro hs h
    simpa [List.foldl_cons] using ih (compressBlock hs (toWords b)) rfl

theorem sha256Words_length (msg : List Nat) : (sha256Words msg).length = 8 := by
  unfold sha256Words
  exact foldl_compress_length _ _ rfl

theorem wordHex_flatten_length (ws : List Nat) :
    ((ws.map wordHex).flatten).length = 8 * ws.length := by
  induction ws with
  | nil => rfl
  | cons w rest ih =>
    simp only [List.map_cons, List.flatten_cons, List.length_append, ih, wordHex,
      List.length_cons, List.length_nil]
    omega

/-- The hex digest always has 64 characters. -/
theorem sha256Hex_length (s : String) : (sha256Hex s).length = 64 := by
  unfold sha256Hex
  rw [string_mk_length, wordHex_flatten_length, sha256Words_length]

/-- The stored identifier is always exactly 16 characters. -/
theorem hashAnonymousId_length (s : String) : (hashAnonymousId s).length = 16 := by
  unfold hashAnonymousId
  rw [string_mk_length, List.length_take]
  have hd : (sha256Hex s).data.length = 64 := sha256Hex_length s
  rw [hd]
  rfl

theorem except_ok_bind {α β : Type} (x : α) (k : α → Except Unit β) :
    (Except.ok x >>= k : Except Unit β) = k x := rfl

theorem except_error_bind {α β : Type} (k : α → Except Unit β) :
    (Except.error () >>= k : Except Unit β) = .error () := rfl

theorem except_error_bind2 {α β : Type} (u : Unit) (k : α → Except Unit β) :
    (Except.error u >>= k : Except Unit β) = .error u := rfl

theorem except_pure_bind {α β : Type} (x : α) (k : α → Except Unit β) :
    ((pure x : Except Unit α) >>= k) = k x := rfl

theorem except_pure_eq_ok {α : Type} (x : α) : (pure x : Except Unit α) = .ok x := rfl

/-- A persisted record comes from a valid verdict and a successful
sanitization, with the three server fields added. -/
theorem postTelemetry_persists (body : Json) (ip : String) (saltEnv verEnv : Option String)
    (ra : String) (resp : ServerResponse) (record : Json)
    (h : postTelemetry body ip saltEnv verEnv ra = (resp, some record)) :
    ∃ res data sanitized,
      validateTelemetryData body = .ok (res, data) ∧ res.valid = true ∧
      sanitizeTelemetryData data = .ok sanitized ∧
      record = addServerFields sanitized ra (jsOrDefault verEnv "1.0.0")
        (hashAnonymousId (ipHashInput ip saltEnv)) := by
  unfold postTelemetry at h
  cases hv : validateTelemetryData body with
  | error u =>
    rw [hv] at h
    simp [postAfterValidate] at h
  | ok p =>
    obtain ⟨res, data⟩ := p
    rw [hv] at h
    simp only [postAfterValidate] at h
    by_cases hval : res.valid = true
    · rw [hval] at h
      simp only [Bool.not_true, Bool.false_eq_true, if_false] at h
      cases hs : sanitizeTelemetryData data with
      | error u =>
        rw [hs] at h
        simp at h
      | ok sanitized =>
        rw [hs] at h
        simp only [Prod.mk.injEq, Option.some.injEq] at h
        exact ⟨res, data, sanitized, rfl, hval, hs, h.2.symm⟩
    · have hf : res.valid = false := by
        cases hb : res.valid
        · rfl
        · exact absurd hb hval
      rw [hf] at h
      simp at h

/-- A valid verdict can only come out of the full check chain: `events` is an
array of at most 1000 events, the per-event loop succeeds, and the returned
body carries the in-place sanitized events. -/
theorem validate_ok_inv (body : Json) (res : ValidationResult) (data : Json)
    (h : validateTelemetryData body = .ok (res, data)) (hres : res.valid = true) :
    ∃ es es', jsFieldD body "events" = Json.arr es ∧
      validateEvents es = .ok (none, es') ∧
      data = jsSetField body "events" (.arr es') := by
  unfold validateTelemetryData at h
  by_cases hsize : 500000 < (jsonStringify body).length
  · rw [if_pos hsize] at h
    injection h with h'
    injection h' with h1 h2
    rw [← h1] at hres
    simp at hres
  · rw [if_neg hsize] at h
    cases hmf : findMissingField body requiredFields with
    | some f =>
      rw [hmf] at h
      simp only [] at h
      injection h with h'
      injection h' with h1 h2
      rw [← h1] at hres
      simp at hres
    | none =>
      rw [hmf] at h
      simp only [] at h
      cases hev : jsFieldD body "events" with
      | arr es =>
        rw [hev] at h
        simp only [] at h
        by_cases hcount : 1000 < es.length
        · rw [if_pos hcount] at h
          injection h with h'
          injection h' with h1 h2
          rw [← h1] at hres
          simp at hres
        · rw [if_neg hcount] at h
          cases hve : validateEvents es with
          | error u =>
            rw [hve] at h
            simp only [] at h
            cases h
          | ok p =>
            obtain ⟨r, es'⟩ := p
            rw [hve] at h
            cases r with
            | some err =>
              simp only [] at h
              injection h with h'
              injection h' with h1 h2
              rw [← h1] at hres
              simp at hres
            | none =>
              simp only [] at h
              injection h with h'
              injection h' with h1 h2
              exact ⟨es, es', rfl, hve, h2.symm⟩
      | null =>
        rw [hev] at h
        simp only [] at h
        injection h with h'
        injection h' with h1 h2
        rw [← h1] at hres
        simp at hres
      | bool b =>
        rw [hev] at h
        simp only [] at h
        injection h with h'
        injection h' with h1 h2
        rw [← h1] at hres
        simp at hres
      | num n =>
        rw [hev] at h
        simp only [] at h
        injection h with h'
        injection h' with h1 h2
        rw [← h1] at hres
        simp at hres
      | str s =>
        rw [hev] at h
        simp only [] at h
        injection h with h'
        injection h' with h1 h2
        rw [← h1] at hres
        simp at hres
      | obj fs =>
        rw [hev] at h
        simp only [] at h
        injection h with h'
        injection h' with h1 h2
        rw [← h1] at hres
        simp at hres

/-- The per-event loop succeeds exactly by replacing, in order, each event's
`eventType` and `anonymousId` with their sanitized forms. -/
theorem validateEvents_ok (es : List Json) :
    ∀ es', validateEvents es = .ok (none, es') →
    es'.length = es.length ∧
    ∀ (i : Nat) (e : Json), es[i]? = some e → es'[i]? = some
      (jsSetField (jsSetField e "eventType" (sanitizeInput (jsFieldD e "eventType")))
        "anonymousId" (sanitizeInput (jsFieldD e "anonymousId"))) := by
  induction es with
  | nil =>
    intro es' h
    unfold validateEvents at h
    injection h with h'
    injection h' with h1 h2
    subst h2
    refine ⟨rfl, ?_⟩
    intro i e hie
    simp at hie
  | cons e rest ih =>
    intro es' h
    unfold validateEvents at h
    by_cases hne : e = Json.null
    · rw [if_pos hne] at h
      cases h
    · rw [if_neg hne] at h
      simp only [] at h
      by_cases hstruct : (!(jsTruthy (jsFieldD e "eventType") &&
          jsTruthy (jsFieldD e "timestamp") && jsTruthy (jsFieldD e "anonymousId"))) = true
      · rw [if_pos hstruct] at h
        injection h with h'
        injection h' with h1 h2
        cases h1
      · rw [if_neg hstruct] at h
        by_cases hwl : (!(inWhitelist (sanitizeInput (jsFieldD e "eventType")))) = true
        · rw [if_pos hwl] at h
          injection h with h'
          injection h' with h1 h2
          cases h1
        · rw [if_neg hwl] at h
          cases hve : validateEvents rest with
          | error u =>
            rw [hve] at h
            simp only [] at h
            cases h
          | ok p =>
            obtain ⟨r, rest'⟩ := p
            rw [hve] at h
            simp only [] at h
            injection h with h'
            injection h' with h1 h2
            obtain ⟨hlen, hidx⟩ := ih rest' (by rw [hve, h1])
            subst h2
            refine ⟨by simp [hlen], ?_⟩
            intro i x hix
            cases i with
            | zero =>
              simp only [List.getElem?_cons_zero, Option.some.injEq] at hix
              subst hix
              simp
            | succ n =>
              simp only [List.getElem?_cons_succ] at hix ⊢
              exact hidx n x hix

/-- Inversion for `events.map(sanitizeEvent)` over the exception monad. -/
theorem mapM_sanitize_inv (es : List Json) :
    ∀ es', es.mapM sanitizeEvent = .ok es' →
    es'.length = es.length ∧
    ∀ (i : Nat) (e : Json), es[i]? = some e →
      ∃ e', es'[i]? = some e' ∧ sanitizeEvent e = .ok e' := by
  induction es with
  | nil =>
    intro es' h
    rw [List.mapM_nil] at h
    injection h with h'
    subst h'
    refine ⟨rfl, ?_⟩
    intro i e hie
    simp at hie
  | cons e rest ih =>
    intro es' h
    rw [List.mapM_cons] at h
    cases hse : sanitizeEvent e with
    | error u =>
      rw [hse, except_error_bind] at h
      cases h
    | ok e1 =>
      rw [hse, except_ok_bind] at h
      cases hm : rest.mapM sanitizeEvent with
      | error u =>
        rw [hm, except_error_bind] at h
        cases h
      | ok rest' =>
        rw [hm, except_ok_bind] at h
        injection h with h'
        subst h'
        obtain ⟨hlen, hidx⟩ := ih rest' hm
        refine ⟨by simp [hlen], ?_⟩
        intro i x hix
        cases i with
        | zero =>
          simp only [List.getElem?_cons_zero, Option.some.injEq] at hix
          subst hix
          exact ⟨e1, by simp, hse⟩
        | succ n =>
          simp only [List.getElem?_cons_succ] at hix ⊢
          exact hidx n x hix

/-- A successfully sanitized event comes from an event whose (already
sanitized, by the validation loop) `anonymousId` is a string, and stores the
16-hex-char hash of that string. -/
theorem sanitizeEvent_anon (e e' : Json) (h : sanitizeEvent e = .ok e') :
    ∃ s, jsFieldD e "anonymousId" = Json.str s ∧
      jsFieldD e' "anonymousId" = Json.str (hashAnonymousId s) := by
  unfold sanitizeEvent at h
  by_cases hne : e = Json.null
  · rw [if_pos hne] at h
    cases h
  · rw [if_neg hne] at h
    simp only [] at h
    cases hh : hashAnonymousIdValue (jsFieldD e "anonymousId") with
    | error u =>
      rw [hh, except_error_bind] at h
      cases h
    | ok hashed =>
      rw [hh, except_ok_bind] at h
      obtain ⟨s, hs, hhash⟩ : ∃ s, jsFieldD e "anonymousId" = Json.str s ∧
          hashed = hashAnonymousId s := by
        revert hh
        unfold hashAnonymousIdValue
        cases jsFieldD e "anonymousId" <;> intro hh
        · cases hh
        · cases hh
        · cases hh
        · injection hh with h1
          exact ⟨_, rfl, h1.symm⟩
        · cases hh
        · cases hh
      refine ⟨s, hs, ?_⟩
      subst hhash
      by_cases hmd : jsTruthy (jsFieldD e "metadata") = true
      · rw [if_pos hmd] at h
        cases hsm : sanitizeMetadata (jsFieldD e "metadata") with
        | error u =>
          rw [hsm, except_error_bind2] at h
          cases h
        | ok sm =>
          rw [hsm, except_ok_bind] at h
          rw [except_pure_bind] at h
          rw [except_pure_eq_ok] at h
          injection h with h'
          subst h'
          simp [jsFieldD, List.lookup]
      · rw [if_neg hmd] at h
        rw [except_pure_bind] at h
        rw [except_pure_eq_ok] at h
        injection h with h'
        subst h'
        simp [jsFieldD, List.lookup]

/-- A successful sanitization rebuilds the events and deletes `sessionId`. -/
theorem sanitize_ok_inv (data sanitized : Json)
    (h : sanitizeTelemetryData data = .ok sanitized) :
    ∃ fields ses ses', data = Json.obj fields ∧
      jsFieldD data "events" = Json.arr ses ∧
      ses.mapM sanitizeEvent = .ok ses' ∧
      sanitized = .obj (removeKey (setKey fields "events" (.arr ses')) "sessionId") := by
  unfold sanitizeTelemetryData at h
  cases data with
  | null => cases h
  | bool b => cases h
  | num n => cases h
  | str s => cases h
  | arr xs => cases h
  | obj fields =>
    cases hev : jsFieldD (Json.obj fields) "events" with
    | arr ses =>
      rw [hev] at h
      simp only [] at h
      cases hm : ses.mapM sanitizeEvent with
      | error u =>
        rw [hm, except_error_bind2] at h
        cases h
      | ok ses' =>
        rw [hm, except_ok_bind] at h
        rw [except_pure_eq_ok] at h
        injection h with h'
        exact ⟨fields, ses, ses', rfl, rfl, hm, h'.symm⟩
    | null =>
      rw [hev] at h
      simp only [] at h
      rw [except_error_bind] at h
      cases h
    | bool b =>
      rw [hev] at h
      simp only [] at h
      rw [except_error_bind] at h
      cases h
    | num n =>
      rw [hev] at h
      simp only [] at h
      rw [except_error_bind] at h
      cases h
    | str s =>
      rw [hev] at h
      simp only [] at h
      rw [except_error_bind] at h
      cases h
    | obj fs =>
      rw [hev] at h
      simp only [] at h
      rw [except_error_bind] at h
      cases h

theorem record_no_sessionId (fs : List (String × Json)) (ra sv iph : String) :
    jsHasField (addServerFields (.obj (removeKey fs "sessionId")) ra sv iph)
      "sessionId" = false := by
  simp only [addServerFields, jsHasField]
  rw [lookup_setKey_ne _ _ _ _ (by decide), lookup_setKey_ne _ _ _ _ (by decide),
    lookup_setKey_ne _ _ _ _ (by decide), lookup_removeKey_self]
  rfl

theorem record_events (fs : List (String × Json)) (v : Json) (ra sv iph : String) :
    jsFieldD (addServerFields (.obj (removeKey (setKey fs "events" v) "sessionId")) ra sv iph)
      "events" = v := by
  simp only [addServerFields, jsFieldD]
  rw [lookup_setKey_ne _ _ _ _ (by decide), lookup_setKey_ne _ _ _ _ (by decide),
    lookup_setKey_ne _ _ _ _ (by decide), lookup_removeKey_ne _ _ _ (by decide),
    lookup_setKey_self]
  rfl

/-- If the in-place sanitized event carries a string `anonymousId`, the
submitted event carried a string too, of which the stored one is the
character-sanitized form. -/
theorem validated_anon (e x : Json) (s' : String)
    (h : jsFieldD (jsSetField (jsSetField e "eventType" x) "anonymousId"
        (sanitizeInput (jsFieldD e "anonymousId"))) "anonymousId" = Json.str s') :
    ∃ s, jsFieldD e "anonymousId" = Json.str s ∧ s' = sanitizeStr s := by
  rcases jsFieldD_setField_cases (jsSetField e "eventType" x) "anonymousId"
      (sanitizeInput (jsFieldD e "anonymousId")) with hc | ⟨hno, hnull⟩
  · rw [hc] at h
    cases horig : jsFieldD e "anonymousId" with
    | str s =>
      rw [horig] at h
      unfold sanitizeInput at h
      injection h with h1
      exact ⟨s, rfl, h1.symm⟩
    | null => rw [horig] at h; cases h
    | bool b => rw [horig] at h; cases h
    | num n => rw [horig] at h; cases h
    | arr xs => rw [horig] at h; cases h
    | obj fs => rw [horig] at h; cases h
  · rw [hno, hnull] at h
    cases h

/-- C1 (amended): every persisted record contains no sessionId field, has
exactly the submitted events, and stores, for each event, a 16-character hash
of the character-sanitized submitted anonymousId (so two events with the same
submitted anonymousId receive the same stored value, and the stored value
differs from any original that is not itself 16 characters long). -/
theorem record_anonymized (body : Json) (ip : String) (saltEnv verEnv : Option String)
    (ra : String) (resp : ServerResponse) (record : Json)
    (h : postTelemetry body ip saltEnv verEnv ra = (resp, some record)) :
    jsHasField record "sessionId" = false ∧
    (eventsOf record).length = (eventsOf body).length ∧
    (∀ (i : Nat) (e : Json), (eventsOf body)[i]? = some e →
      ∃ s e', jsFieldD e "anonymousId" = Json.str s ∧
        (eventsOf record)[i]? = some e' ∧
        jsFieldD e' "anonymousId" = Json.str (hashAnonymousId (sanitizeStr s)) ∧
        (hashAnonymousId (sanitizeStr s)).length = 16 ∧
        (s.length ≠ 16 → hashAnonymousId (sanitizeStr s) ≠ s)) ∧
    (∀ (i j : Nat) (ei ej : Json) (si sj : String),
      (eventsOf body)[i]? = some ei → (eventsOf body)[j]? = some ej →
      jsFieldD ei "anonymousId" = Json.str si → jsFieldD ej "anonymousId" = Json.str sj →
      si = sj →
      ∀ ri rj, (eventsOf record)[i]? = some ri → (eventsOf record)[j]? = some rj →
        jsFieldD ri "anonymousId" = jsFieldD rj "anonymousId") := by
  obtain ⟨res, data, sanitized, hv, hres, hs, hrec⟩ :=
    postTelemetry_persists body ip saltEnv verEnv ra resp record h
  obtain ⟨es, es', hev, hve, hdata⟩ := validate_ok_inv body res data hv hres
  obtain ⟨fields, mes, ses2, hdobj, hdev, hmapM, hsan⟩ := sanitize_ok_inv data sanitized hs
  obtain ⟨hvlen, hvidx⟩ := validateEvents_ok es es' hve
  have hbody_ev : eventsOf body = es := by
    unfold eventsOf
    rw [hev]
  have hmes : mes = es' := by
    rw [hdata] at hdev
    cases body with
    | obj bfs =>
      rw [jsFieldD_setField_obj] at hdev
      injection hdev with h1
      exact h1.symm
    | null => cases hev
    | bool b => cases hev
    | num n => cases hev
    | str s => cases hev
    | arr xs => cases hev
  subst hmes
  obtain ⟨hslen, hsidx⟩ := mapM_sanitize_inv mes ses2 hmapM
  -- fields of the record
  have hfields : ∃ bfs, data = Json.obj bfs ∧
      sanitized = .obj (removeKey (setKey bfs "events" (.arr ses2)) "sessionId") := by
    exact ⟨fields, hdobj, hsan⟩
  have hrec_ev : eventsOf record = ses2 := by
    rw [hrec, hsan]
    unfold eventsOf
    rw [record_events]
  have hrec_sess : jsHasField record "sessionId" = false := by
    rw [hrec, hsan]
    have : removeKey (setKey fields "events" (Json.arr ses2)) "sessionId" =
        removeKey (setKey fields "events" (Json.arr ses2)) "sessionId" := rfl
    exact record_no_sessionId (setKey fields "events" (Json.arr ses2)) _ _ _
  have main : ∀ (i : Nat) (e : Json), (eventsOf body)[i]? = some e →
      ∃ s e', jsFieldD e "anonymousId" = Json.str s ∧
        (eventsOf record)[i]? = some e' ∧
        jsFieldD e' "anonymousId" = Json.str (hashAnonymousId (sanitizeStr s)) := by
    intro i e hie
    rw [hbody_ev] at hie
    have hmut := hvidx i e hie
    obtain ⟨r, hr, hser⟩ := hsidx i _ hmut
    obtain ⟨s', hvs', hrs'⟩ := sanitizeEvent_anon _ _ hser
    obtain ⟨s, horig, hss⟩ := validated_anon e _ s' hvs'
    refine ⟨s, r, horig, ?_, ?_⟩
    · rw [hrec_ev]
      exact hr
    · rw [hrs', hss]
  refine ⟨hrec_sess, ?_, ?_, ?_⟩
  · rw [hrec_ev, hbody_ev, hslen, hvlen]
  · intro i e hie
    obtain ⟨s, e', h1, h2, h3⟩ := main i e hie
    exact ⟨s, e', h1, h2, h3, hashAnonymousId_length _,
      fun hlen heq => hlen (heq ▸ hashAnonymousId_length (sanitizeStr s))⟩
  · intro i j ei ej si sj hi hj hsi hsj hij ri rj hri hrj
    obtain ⟨s1, e1, hb1, hr1, hst1⟩ := main i ei hi
    obtain ⟨s2, e2, hb2, hr2, hst2⟩ := main j ej hj
    have hs1 : s1 = si := by
      rw [hsi] at hb1
      exact (Json.str.inj hb1).symm
    have hs2 : s2 = sj := by
      rw [hsj] at hb2
      exact (Json.str.inj hb2).symm
    have he1 : ri = e1 := by
      rw [hri] at hr1
      exact Option.some.inj hr1
    have he2 : rj = e2 := by
      rw [hrj] at hr2
      exact Option.some.inj hr2
    rw [he1, he2, hst1, hst2, hs1, hs2, hij]

/-- C1 counterexample: for the accepted batch whose event carries the
anonymousId "abc<def", the persisted value is the hash of the in-place
sanitized string "abcdef", which is not the hash of the submitted value. -/
theorem record_hash_counterexample :
    ((postTelemetry (sampleBody [sampleEvent "thought_created" "abc<def"]) "1.2.3.4" none none
        "2025-01-07T00:00:00.000Z").2.map
      (fun r => (eventsOf r).map (fun e => jsFieldD e "anonymousId"))) =
      some [Json.str (hashAnonymousId "abcdef")] ∧
    hashAnonymousId "abcdef" ≠ hashAnonymousId "abc<def" := by
  set_option maxRecDepth 4000 in
  exact ⟨by decide, by decide⟩

/-- C1 witness: the same accepted batch has a persisted record, and the
theorem applies to it: no sessionId field and as many stored events as
submitted. -/
theorem record_anonymized_witness :
    jsHasField ((postTelemetry (sampleBody [sampleEvent "thought_created" "abc<def"]) "1.2.3.4"
      none none "2025-01-07T00:00:00.000Z").2.getD .null) "sessionId" = false ∧
    (eventsOf ((postTelemetry (sampleBody [sampleEvent "thought_created" "abc<def"]) "1.2.3.4"
      none none "2025-01-07T00:00:00.000Z").2.getD .null)).length =
      (eventsOf (sampleBody [sampleEvent "thought_created" "abc<def"])).length := by
  have heq : postTelemetry (sampleBody [sampleEvent "thought_created" "abc<def"]) "1.2.3.4"
      none none "2025-01-07T00:00:00.000Z" =
      ((postTelemetry (sampleBody [sampleEvent "thought_created" "abc<def"]) "1.2.3.4"
        none none "2025-01-07T00:00:00.000Z").1,
       some ((postTelemetry (sampleBody [sampleEvent "thought_created" "abc<def"]) "1.2.3.4"
        none none "2025-01-07T00:00:00.000Z").2.getD .null)) := by
    set_option maxRecDepth 4000 in
    decide
  have h := record_anonymized (sampleBody [sampleEvent "thought_created" "abc<def"]) "1.2.3.4"
    none none "2025-01-07T00:00:00.000Z" _ _ heq
  exact ⟨h.1, h.2.1⟩
